import Mathlib

/-!
Verification of the "Panda & Dog" cooperative stealth-puzzle Room simulation
(`src/src/game/Guard.ts`, `Room` class) against its specification.

Modelling conventions:
* JavaScript numbers are modelled as exact rationals (`ℚ`).
* `Math.sqrt` occurs in the source in two roles.
  - In comparisons `sqrt(dx*dx+dy*dy) < r` / `> r` it is translated to the
    algebraically equivalent rational conditions (`sqDistLt`, `sqDistGt`):
    for real numbers, `√s < r ↔ 0 < r ∧ s < r*r` and `√s > r ↔ r < 0 ∨ s > r*r`
    whenever `s ≥ 0` (here `s` is always a sum of squares).
  - Where the square root is used as a value (the guard movement code divides
    by the distance to normalise a direction vector), the functions take the
    square-root function as an explicit parameter `sq : ℚ → ℚ`; every theorem
    below holds for an arbitrary such parameter, in particular for (the
    restriction to the reachable arguments of) the real square root.
* `Math.atan2(dy, dx) * (180 / Math.PI)` (used for guard facing angles and the
  vision-cone test) is likewise an explicit parameter `atd : ℚ → ℚ → ℚ`
  (applied as `atd dy dx`).
* `Math.ceil(dist * 2)` with `dist = sqrt s` is the exact natural number
  `⌈2·√s⌉`, computed rationally by `ceilTwoSqrt`.
* JavaScript `Map`s (keyed by `id`) are modelled as lists of entries in
  insertion order with pairwise distinct keys; deleting a key is `filter`,
  `get` is `find?`, and mutating one value is `updateById`.
* `Date.now()` is an explicit parameter `now : ℚ` wherever the source reads it.
-/

namespace Game

/-- World position (x, y, z) as in `shared/types` `WorldPos`. -/
structure WorldPos where
  x : ℚ
  y : ℚ
  z : ℚ
deriving DecidableEq, Repr

/-- 2-D velocity as in `shared/types` `Vec2`. -/
structure Vec2 where
  x : ℚ
  y : ℚ
deriving DecidableEq, Repr

/-- Player role (`'dog' | 'panda'`). -/
inductive Role where
  | dog
  | panda
deriving DecidableEq, Repr

/-- Tile type tag from `shared/types` (`TileType`). -/
inductive TileType where
  | ground
  | grass
  | stone
  | water
  | wall
  | bridge
  | voidT
deriving DecidableEq, Repr

/-- One tile of the level grid (`TileData`). -/
structure TileData where
  type : TileType
  elevation : ℚ
  walkable : Bool
deriving DecidableEq, Repr

/-- Modelled from the spec: the file `shared/constants.ts` (the `DOG`, `PANDA`,
`PING` and `HAZARD` constant records imported by the Room) is absent from the
sources; only its callers are present.  The spec fixes merely that these are
fixed constants (role collision radii, ping cooldown / per-player maximum /
lifetime, hazard collision radius), so they are parameters of the model. -/
structure Consts where
  dogCollisionRadius : ℚ
  pandaCollisionRadius : ℚ
  hazardCollisionRadius : ℚ
  pingCooldown : ℚ
  pingMaxPerPlayer : ℕ
  pingLifetime : ℚ
deriving DecidableEq, Repr

/-- `DOG.COLLISION_RADIUS` / `PANDA.COLLISION_RADIUS` selection in
`Room.validatePosition`. -/
def collisionRadius (c : Consts) : Role → ℚ
  | .dog => c.dogCollisionRadius
  | .panda => c.pandaCollisionRadius

/-- Puzzle condition type tag (`PuzzleCondition.type`). -/
inductive PCondType where
  | interactableState
  | bothPlayersInZone
  | allObjectives
deriving DecidableEq, Repr

/-- Primitive JSON-ish value stored in a state record, used to model the
`Record<string, unknown>` comparisons of `checkObjective`. -/
inductive Prim where
  | b (v : Bool)
  | s (v : String)
  | q (v : ℚ)
deriving DecidableEq, Repr

/-- `PuzzleCondition` (all fields optional in the source record). -/
structure PuzzleCondition where
  type : PCondType
  targetId : Option String
  state : Option (List (String × Prim))
  zoneMin : Option WorldPos
  zoneMax : Option WorldPos
deriving DecidableEq, Repr

/-- One objective of a `PuzzleConfig`. -/
structure ObjectiveConfig where
  id : String
  condition : PuzzleCondition
  optional : Bool
deriving DecidableEq, Repr

/-- `PuzzleConfig` (the fields the Room reads). -/
structure PuzzleConfig where
  id : String
  objectives : List ObjectiveConfig
  completionReward : Option String
deriving DecidableEq, Repr

/-- `LevelData` as read by the Room. -/
structure LevelData where
  width : ℚ
  height : ℚ
  tiles : List (List TileData)
  spawnDog : WorldPos
  spawnPanda : WorldPos
  puzzles : List PuzzleConfig
deriving DecidableEq, Repr

/-- Lever position (`'off' | 'on' | 'held'`). -/
inductive LeverPos where
  | off
  | on
  | held
deriving DecidableEq, Repr

/-- Pressure-plate weight threshold (`'light' | 'heavy'`). -/
inductive Weight where
  | light
  | heavy
deriving DecidableEq, Repr

/-- Type-specific interactable state.  The source keeps a stringly-typed
`Record<string, unknown>` cast per type tag; per the spec's invariant the
record's shape is fully determined by the type tag, so the pair
(type tag, state record) is modelled as one tagged union.  Constructor
argument order follows the field order of the source casts.  Types whose
state fields the Room never reads (`camera_node`, `mirror`, `teleporter`,
`checkpoint`, `spike_trap`, `timed_button`) carry no fields here. -/
inductive IState where
  | door (isOpen locked requiresHeavy : Bool)
  | lever (position : LeverPos) (requiresStrength : Bool)
  | plate (activated : Bool) (weightThreshold : Weight) (currentWeight : ℚ)
  | crate (gridX gridY : ℚ) (beingPushed : Bool)
  | winch (extended : ℚ) (operating requiresPower : Bool) (poweredById : Option String)
  | button (pressed momentary : Bool) (timer : Option ℚ) (timerDuration : Option ℚ)
  | platform (currentPosition : ℚ) (moving : Bool) (direction speed : ℚ)
      (waypoints : List WorldPos)
  | hazard (active : Bool)
  | conveyor (active : Bool) (dirX dirY speed width length : ℚ)
  | cameraNode
  | other (tag : String)
deriving DecidableEq, Repr

/-- `InteractableState`: id, position, type-specific state, linked ids. -/
structure Interactable where
  id : String
  position : WorldPos
  state : IState
  linkedIds : List String
deriving DecidableEq, Repr

/-- `EntityState` (the fields the Room reads/writes). -/
structure Entity where
  id : String
  type : Role
  position : WorldPos
  velocity : Vec2
  facing : String
  state : String
deriving DecidableEq, Repr

/-- Guard alert state. -/
inductive AlertState where
  | idle
  | suspicious
  | alert
  | returning
deriving DecidableEq, Repr

/-- `GuardState` of the Room. -/
structure GuardS where
  id : String
  position : WorldPos
  facing : ℚ
  patrolRoute : List WorldPos
  patrolIndex : ℤ
  patrolDirection : ℤ
  alertState : AlertState
  alertTimer : ℚ
  lastSeenPlayerPos : Option WorldPos
  visionAngle : ℚ
  visionRange : ℚ
  moveSpeed : ℚ
deriving DecidableEq, Repr

/-- Distraction kind (`'whistle' | 'rock'`). -/
inductive DKind where
  | whistle
  | rock
deriving DecidableEq, Repr

/-- `DistractionEvent`. -/
structure Distraction where
  position : WorldPos
  type : DKind
  createdAt : ℚ
  duration : ℚ
deriving DecidableEq, Repr

/-- `PingType`. -/
inductive PingType where
  | look
  | go
  | wait
  | interact
  | danger
deriving DecidableEq, Repr

/-- `PingMarker`. -/
structure Ping where
  id : String
  position : WorldPos
  type : PingType
  createdBy : Role
  createdAt : ℚ
  expiresAt : ℚ
deriving DecidableEq, Repr

/-- Respawn reason (`'hazard' | 'guard'`). -/
inductive RespawnReason where
  | hazard
  | guard
deriving DecidableEq, Repr

/-- `RespawnEvent` queued for broadcast. -/
structure RespawnEvent where
  entityId : String
  role : Role
  position : WorldPos
  reason : RespawnReason
deriving DecidableEq, Repr

/-- Per-puzzle state (`PlayerPuzzleState`): completed flag plus the
objective-id → boolean map. -/
structure PuzzleSt where
  completed : Bool
  objectives : List (String × Bool)
deriving DecidableEq, Repr

/-- The Room's mutable simulation state (the collections the `tick`
pipeline and the claim-relevant operations touch). -/
structure World where
  level : Option LevelData
  interactables : List Interactable
  entities : List Entity
  guards : List GuardS
  distractions : List Distraction
  pings : List Ping
  puzzles : List (String × PuzzleSt)
  checkpointPosition : Option (WorldPos × WorldPos)
  pendingRespawns : List RespawnEvent
  tickCount : ℕ
  paused : Bool
deriving DecidableEq, Repr

/-! ### Generic Map helpers (JS `Map` keyed by `id`, unique keys) -/

/-- `Map.get(id)` on the interactable store. -/
def findById (l : List Interactable) (i : String) : Option Interactable :=
  l.find? (fun it => it.id = i)

/-- In-place mutation of the value stored under key `i` (all other entries
unchanged; under the unique-keys invariant this touches one entry). -/
def updateById (l : List Interactable) (i : String) (f : Interactable → Interactable) :
    List Interactable :=
  l.map (fun it => if it.id = i then f it else it)

/-! ### Exact translations of the `Math.sqrt` comparisons -/

/-- `Math.sqrt (dx*dx + dy*dy) < r`, rationally: for reals, `√s < r` iff
`0 < r ∧ s < r*r` (note `√s ≥ 0`). -/
def sqDistLt (dx dy r : ℚ) : Bool :=
  decide (0 < r ∧ dx * dx + dy * dy < r * r)

/-- `Math.sqrt (dx*dx + dy*dy) > r`, rationally: for reals, `√s > r` iff
`r < 0 ∨ s > r*r` (with `s ≥ 0`). -/
def sqDistGt (dx dy r : ℚ) : Bool :=
  decide (r < 0 ∨ r * r < dx * dx + dy * dy)

/-- `Math.ceil (2 * Math.sqrt s)` for `s ≥ 0`, computed exactly: the least
`n : ℕ` with `4*s ≤ n*n`. -/
def ceilTwoSqrt (s : ℚ) : ℕ :=
  if 4 * s ≤ 0 then 0
  else Nat.sqrt ((⌈4 * s⌉).toNat - 1) + 1

/-! ### Collision / movement validator (`Room.isPositionWalkable`,
`Room.validatePosition`) -/

/-- The four corner offsets of the collision box. -/
def cornerOffsets (radius : ℚ) : List (ℚ × ℚ) :=
  [(-radius, -radius), (radius, -radius), (-radius, radius), (radius, radius)]

/-- Tile lookup `this.levelData.tiles[checkY][checkX]` guarded exactly as in
the source (`checkY >= 0 && checkY < tiles.length`, then
`row && checkX >= 0 && checkX < row.length`). -/
def tileAt (lv : LevelData) (cx cy : ℤ) : Option TileData :=
  match (if 0 ≤ cy then lv.tiles.get? cy.toNat else none) with
  | none => none
  | some row => if 0 ≤ cx then row.get? cx.toNat else none

/-- `Room.isPositionWalkable(x, y, radius)`:
bounds check, the four corners of the collision box land on walkable tiles,
and the point is not within the `0.6`-box of any closed door.  Returns `true`
when no level is loaded (the source returns early). -/
def isPositionWalkable (lvO : Option LevelData) (inters : List Interactable)
    (x y radius : ℚ) : Bool :=
  match lvO with
  | none => true
  | some lv =>
    if x < radius ∨ lv.width - radius ≤ x ∨ y < radius ∨ lv.height - radius ≤ y then
      false
    else
      ((cornerOffsets radius).all (fun off =>
        match tileAt lv ⌊x + off.1⌋ ⌊y + off.2⌋ with
        | none => true
        | some tile => tile.walkable)) &&
      (inters.all (fun it =>
        match it.state with
        | .door isOpen _ _ =>
          if isOpen then true
          else ! (decide (|x - it.position.x| < 0.6 ∧ |y - it.position.y| < 0.6))
        | _ => true))

/-- `Room.validatePosition(currentPos, targetPos, role)`: accept the target if
walkable; otherwise slide along X (`(targetX, currentY)`), then along Y
(`(currentX, targetY)`); if both fail, keep the current position.  Returns the
target unchecked when no level is loaded. -/
def validatePosition (c : Consts) (lvO : Option LevelData) (inters : List Interactable)
    (currentPos targetPos : WorldPos) (role : Role) : WorldPos :=
  match lvO with
  | none => targetPos
  | some _ =>
    let radius := collisionRadius c role
    if isPositionWalkable lvO inters targetPos.x targetPos.y radius then
      targetPos
    else if isPositionWalkable lvO inters targetPos.x currentPos.y radius then
      ⟨targetPos.x, currentPos.y, targetPos.z⟩
    else if isPositionWalkable lvO inters currentPos.x targetPos.y radius then
      ⟨currentPos.x, targetPos.y, targetPos.z⟩
    else
      currentPos

/-! ### Spawns and respawning -/

/-- `Room.getSpawnPosition(role)`: the level spawn for the role, or the
default positions when no level is loaded. -/
def getSpawnPosition (lvO : Option LevelData) (role : Role) : WorldPos :=
  match lvO with
  | some lv => match role with
    | .dog => lv.spawnDog
    | .panda => lv.spawnPanda
  | none => match role with
    | .dog => ⟨5, 5, 0⟩
    | .panda => ⟨7, 5, 0⟩

/-- `Room.respawnEntity(entity)`: reset the entity to its level spawn
position (the checkpoint is NOT consulted here), zero velocity, state idle,
and produce the queued respawn event (reason `'hazard'`). -/
def respawnEntity (lvO : Option LevelData) (e : Entity) : Entity × RespawnEvent :=
  let spawn := getSpawnPosition lvO e.type
  ({ e with position := spawn, velocity := ⟨0, 0⟩, state := "idle" },
   { entityId := e.id, role := e.type, position := spawn, reason := .hazard })

/-- `Room.respawnPlayersAtCheckpoint(reason)`: every entity is moved to the
checkpoint position for its role (or the level spawn when no checkpoint has
been set), velocity zeroed, state idle; one event per entity is queued. -/
def respawnPlayersAtCheckpoint (lvO : Option LevelData)
    (cp : Option (WorldPos × WorldPos)) (reason : RespawnReason)
    (ents : List Entity) : List Entity × List RespawnEvent :=
  let ckDog := match cp with | some p => p.1 | none => getSpawnPosition lvO .dog
  let ckPanda := match cp with | some p => p.2 | none => getSpawnPosition lvO .panda
  let move := fun (e : Entity) =>
    let spawnPos := match e.type with | .dog => ckDog | .panda => ckPanda
    ({ e with position := spawnPos, velocity := ⟨0, 0⟩, state := "idle" },
     ({ entityId := e.id, role := e.type, position := spawnPos, reason := reason }
       : RespawnEvent))
  ((ents.map move).map Prod.fst, (ents.map move).map Prod.snd)

/-! ### Link propagation (`Room.triggerLinkedObjects`) -/

/-- One linked id of `Room.triggerLinkedObjects`: toggle a linked door's
`open` flag (with no check of its `locked` flag) or a linked platform's
`moving` flag; other linked types are left unchanged. -/
def triggerLinkedStep (acc : List Interactable) (lid : String) : List Interactable :=
  match findById acc lid with
  | none => acc
  | some linked =>
    match linked.state with
    | .door isOpen locked rh =>
      updateById acc lid (fun it =>
        match it.state with
        | .door _ _ _ => { it with state := .door (!isOpen) locked rh }
        | _ => it)
    | .platform cp mv dir sp wps =>
      updateById acc lid (fun it =>
        match it.state with
        | .platform _ _ _ _ _ => { it with state := .platform cp (!mv) dir sp wps }
        | _ => it)
    | _ => acc

/-- `Room.triggerLinkedObjects(source)`. -/
def triggerLinkedObjects (inters : List Interactable) (source : Interactable) :
    List Interactable :=
  source.linkedIds.foldl triggerLinkedStep inters

/-! ### Pressure plates (`Room.updatePressurePlates`,
`Room.handlePressurePlateChange`, `Room.checkDoorUnlock`) -/

/-- Whether an interactable is a crate (`other.type === 'crate'`). -/
def isCrate (it : Interactable) : Bool :=
  match it.state with
  | .crate _ _ _ => true
  | _ => false

/-- Total weight on a plate at `platePos`: entities within radius `0.8`
contribute 2 (panda) or 1 (dog), crates within the radius contribute 2. -/
def plateWeight (ents : List Entity) (inters : List Interactable)
    (platePos : WorldPos) : ℚ :=
  (ents.foldl
    (fun acc e =>
      if sqDistLt (e.position.x - platePos.x) (e.position.y - platePos.y) 0.8 then
        acc + (if e.type = .panda then 2 else 1)
      else acc)
    0) +
  (inters.foldl
    (fun acc o =>
      if isCrate o then
        if sqDistLt (o.position.x - platePos.x) (o.position.y - platePos.y) 0.8 then
          acc + 2
        else acc
      else acc)
    0)

/-- Whether an interactable is a pressure plate. -/
def isPlate (it : Interactable) : Bool :=
  match it.state with
  | .plate _ _ _ => true
  | _ => false

/-- Whether an interactable is a pressure plate whose `linkedIds` include
`doorId` (the filter of `Room.checkDoorUnlock`). -/
def isPlateLinkedTo (doorId : String) (it : Interactable) : Bool :=
  isPlate it && it.linkedIds.contains doorId

/-- Activation flag of a plate entry (used over entries already known to be
plates). -/
def plateActivated (it : Interactable) : Bool :=
  match it.state with
  | .plate a _ _ => a
  | _ => false

/-- `Room.checkDoorUnlock(door)`: the door becomes unlocked and open iff
every pressure plate whose `linkedIds` contain it is activated and there is at
least one such plate; with at least one linked plate not all activated it is
forced locked and closed; with no linked plate it is untouched. -/
def checkDoorUnlock (inters : List Interactable) (doorId : String) :
    List Interactable :=
  let requiredPlates := inters.filter (isPlateLinkedTo doorId)
  let allActivated := requiredPlates.all plateActivated
  if allActivated ∧ 0 < requiredPlates.length then
    updateById inters doorId (fun it =>
      match it.state with
      | .door _ _ rh => { it with state := .door true false rh }
      | _ => it)
  else if 0 < requiredPlates.length then
    updateById inters doorId (fun it =>
      match it.state with
      | .door _ _ rh => { it with state := .door false true rh }
      | _ => it)
  else inters

/-- `Room.handlePressurePlateChange(plate, activated)`: for each linked id,
a hazard's `active` is set to `!activated`; a door is re-evaluated through
`checkDoorUnlock`; other types are untouched. -/
def handlePressurePlateChange (inters : List Interactable) (plate : Interactable)
    (activated : Bool) : List Interactable :=
  plate.linkedIds.foldl
    (fun acc lid =>
      match findById acc lid with
      | none => acc
      | some linked =>
        match linked.state with
        | .hazard _ =>
          updateById acc lid (fun it =>
            match it.state with
            | .hazard _ => { it with state := .hazard (!activated) }
            | _ => it)
        | .door _ _ _ => checkDoorUnlock acc lid
        | _ => acc)
    inters

/-- The body of the `handlePressurePlateChange` fold over `linkedIds`, named
so the fold can be reasoned about one link at a time. -/
def hppcStep (activated : Bool) (acc : List Interactable) (lid : String) :
    List Interactable :=
  match findById acc lid with
  | none => acc
  | some linked =>
    match linked.state with
    | .hazard _ =>
      updateById acc lid (fun it =>
        match it.state with
        | .hazard _ => { it with state := .hazard (!activated) }
        | _ => it)
    | .door _ _ _ => checkDoorUnlock acc lid
    | _ => acc

/-- One iteration of the `updatePressurePlates` loop for key `pid`: skip
non-plates; otherwise recompute the weight from scratch, store
`currentWeight` and `activated = weight ≥ required`, and on an activation
change propagate via `handlePressurePlateChange`. -/
def processPlate (ents : List Entity) (inters : List Interactable) (pid : String) :
    List Interactable :=
  match findById inters pid with
  | none => inters
  | some it =>
    match it.state with
    | .plate wasActivated thr _ =>
      let totalWeight := plateWeight ents inters it.position
      let requiredWeight : ℚ := if thr = .heavy then 2 else 1
      let nowActivated := decide (requiredWeight ≤ totalWeight)
      let newState : IState := .plate nowActivated thr totalWeight
      -- the Map entry under this key is the plate just read; the state guard
      -- restates that (keys are unique), mirroring the in-place mutation
      let inters1 := updateById inters pid (fun j =>
        match j.state with
        | .plate _ _ _ => { j with state := newState }
        | _ => j)
      if nowActivated ≠ wasActivated then
        handlePressurePlateChange inters1 { it with state := newState } nowActivated
      else inters1
    | _ => inters

/-- `Room.updatePressurePlates()`: process every entry (the source iterates
the Map's keys in insertion order; only plate entries act). -/
def updatePressurePlatesList (ents : List Entity) (inters : List Interactable) :
    List Interactable :=
  (inters.map (fun it => it.id)).foldl (processPlate ents) inters

/-! ### Winches (`Room.updateWinches`, `Room.triggerWinchPlatforms`) -/

/-- `Room.triggerWinchPlatforms(winch)`: snap each linked platform to
`currentPosition = 1`, stop it, and move it to its second waypoint when it
has one. -/
def triggerWinchPlatforms (inters : List Interactable) (linkedIds : List String) :
    List Interactable :=
  linkedIds.foldl
    (fun acc lid =>
      match findById acc lid with
      | none => acc
      | some linked =>
        match linked.state with
        | .platform _ _ dir sp wps =>
          updateById acc lid (fun it =>
            match it.state with
            | .platform _ _ _ _ _ =>
              let it1 := { it with state := .platform 1 false dir sp wps }
              match wps.get? 1 with
              | some wp => { it1 with position := wp }
              | none => it1
            | _ => it)
        | _ => acc)
    inters

/-- One iteration of the `updateWinches` loop for key `wid`. -/
def processWinch (inters : List Interactable) (wid : String) : List Interactable :=
  match findById inters wid with
  | none => inters
  | some it =>
    match it.state with
    | .winch extended operating requiresPower poweredById =>
      let powerBlocked :=
        requiresPower &&
        (match poweredById with
         | some pidSrc =>
           match findById inters pidSrc with
           | some ps =>
             match ps.state with
             | .lever lpos _ => lpos ≠ .on
             | _ => false
           | none => false
         | none => false)
      if powerBlocked then
        updateById inters wid (fun j =>
          match j.state with
          | .winch e _ rp pb => { j with state := .winch e false rp pb }
          | _ => j)
      else if operating then
        let extended1 := min 1 (extended + 0.02)
        let inters1 := updateById inters wid (fun j =>
          match j.state with
          | .winch _ _ rp pb =>
            { j with state := .winch extended1 (!(1 ≤ extended1) && operating) rp pb }
          | _ => j)
        if 1 ≤ extended1 then triggerWinchPlatforms inters1 it.linkedIds
        else inters1
      else inters
    | _ => inters

/-- `Room.updateWinches()`. -/
def updateWinchesList (inters : List Interactable) : List Interactable :=
  (inters.map (fun it => it.id)).foldl processWinch inters

/-! ### Platforms (`Room.updatePlatforms`) -/

/-- Per-platform update: advance `currentPosition` by `direction*speed*0.02`,
clamp to `[0,1]` reversing the direction at the bounds, and linearly
interpolate the world position between the first two waypoints.  Only acts
while `moving` with at least two waypoints. -/
def updatePlatformStep (it : Interactable) : Interactable :=
  match it.state with
  | .platform currentPosition moving direction speed wps =>
    if moving && decide (2 ≤ wps.length) then
      let cp1 := currentPosition + direction * speed * 0.02
      let cp2 := if 1 ≤ cp1 then (1 : ℚ) else if cp1 ≤ 0 then 0 else cp1
      let dir2 := if 1 ≤ cp1 then (-1 : ℚ) else if cp1 ≤ 0 then 1 else direction
      match wps.get? 0, wps.get? 1 with
      | some s, some e =>
        { it with
          state := .platform cp2 moving dir2 speed wps,
          position := ⟨s.x + (e.x - s.x) * cp2, s.y + (e.y - s.y) * cp2,
                       s.z + (e.z - s.z) * cp2⟩ }
      | _, _ => it
    else it
  | _ => it

/-- `Room.updatePlatforms()` (each platform reads only its own state, so the
loop is a map). -/
def updatePlatformsList (inters : List Interactable) : List Interactable :=
  inters.map updatePlatformStep

/-! ### Timed buttons (`Room.updateTimedButtons`) -/

/-- One iteration of the `updateTimedButtons` loop for key `bid`: a pressed
button whose `timer` is defined and whose `timerDuration` is truthy has its
timer decremented by 50 ms; at zero it is released, its timer cleared, and
its linked objects re-triggered (toggle off). -/
def processTimedButton (inters : List Interactable) (bid : String) :
    List Interactable :=
  match findById inters bid with
  | none => inters
  | some it =>
    match it.state with
    | .button pressed momentary timerO timerDuration =>
      match timerO with
      | some t =>
        if pressed && (match timerDuration with
                       | some d => d ≠ 0
                       | none => false) then
          let t1 := t - 50
          if t1 ≤ 0 then
            let inters1 := updateById inters bid (fun j =>
              match j.state with
              | .button _ m _ td => { j with state := .button false m none td }
              | _ => j)
            triggerLinkedObjects inters1 it
          else
            updateById inters bid (fun j =>
              match j.state with
              | .button p m _ td => { j with state := .button p m (some t1) td }
              | _ => j)
        else inters
      | none =>
        -- `state.timer !== undefined` fails: nothing happens
        let _ := momentary
        inters
    | _ => inters

/-- `Room.updateTimedButtons()`. -/
def updateTimedButtonsList (inters : List Interactable) : List Interactable :=
  (inters.map (fun it => it.id)).foldl processTimedButton inters

/-! ### Conveyors (`Room.updateConveyors`, `Room.isOnConveyor`) -/

/-- `Room.isOnConveyor`: simplified bounding-box test (note the source pairs
`|dx|` with half the LENGTH and `|dy|` with half the WIDTH). -/
def isOnConveyor (entityPos conveyorPos : WorldPos) (width length : ℚ) : Bool :=
  decide (|entityPos.x - conveyorPos.x| < length / 2 ∧
          |entityPos.y - conveyorPos.y| < width / 2)

/-- One iteration of the `updateConveyors` loop for key `cid`: an active
conveyor translates every entity and every crate inside its box by
`direction * speed * 0.05`. -/
def processConveyor (st : List Entity × List Interactable) (cid : String) :
    List Entity × List Interactable :=
  match findById st.2 cid with
  | none => st
  | some it =>
    match it.state with
    | .conveyor active dirX dirY speed width length =>
      if active then
        let conveyorSpeed := speed * 0.05
        let ents1 := st.1.map (fun e =>
          if isOnConveyor e.position it.position width length then
            { e with position := ⟨e.position.x + dirX * conveyorSpeed,
                                  e.position.y + dirY * conveyorSpeed,
                                  e.position.z⟩ }
          else e)
        let inters1 := st.2.map (fun o =>
          if isCrate o ∧ isOnConveyor o.position it.position width length then
            { o with position := ⟨o.position.x + dirX * conveyorSpeed,
                                  o.position.y + dirY * conveyorSpeed,
                                  o.position.z⟩ }
          else o)
        (ents1, inters1)
      else st
    | _ => st

/-- `Room.updateConveyors()`. -/
def updateConveyorsList (ents : List Entity) (inters : List Interactable) :
    List Entity × List Interactable :=
  (inters.map (fun it => it.id)).foldl processConveyor (ents, inters)

/-! ### Guard AI (`Room.updateGuards` and friends) -/

/-- The source's angle normalisation
(`while (diff > 180) diff -= 360; while (diff < -180) diff += 360;`),
as a closed form: subtract the least multiple of 360 that lands `≤ 180`
(ending in `(-180, 180]`), respectively add the least multiple that lands
`≥ -180` (ending in `[-180, 180)`). -/
def norm180 (a : ℚ) : ℚ :=
  if 180 < a then a - 360 * (⌈(a - 180) / 360⌉ : ℤ)
  else if a < -180 then a + 360 * (⌈(-180 - a) / 360⌉ : ℤ)
  else a

/-- `Room.canGuardSeeEntity(guard, entity)`: within `visionRange`, within half
the vision cone around the facing angle, and no sampled point of the line of
sight lands on a non-walkable tile.  `atd dy dx` stands for
`Math.atan2(dy, dx) * 180 / Math.PI`. -/
def canGuardSeeEntity (atd : ℚ → ℚ → ℚ) (lvO : Option LevelData)
    (inters : List Interactable) (g : GuardS) (e : Entity) : Bool :=
  let dx := e.position.x - g.position.x
  let dy := e.position.y - g.position.y
  if sqDistGt dx dy g.visionRange then false
  else
    let angleDiff := norm180 (atd dy dx - g.facing)
    if g.visionAngle / 2 < |angleDiff| then false
    else
      let steps := ceilTwoSqrt (dx * dx + dy * dy)
      ((List.range steps).drop 1).all (fun i =>
        let t : ℚ := (i : ℚ) / (steps : ℚ)
        isPositionWalkable lvO inters (g.position.x + dx * t) (g.position.y + dy * t)
          0.1)

/-- `Room.updateGuardPatrol`: ping-pong along the patrol route; on reaching
the current waypoint (distance `< 0.2`) advance the index, reversing at the
ends; otherwise move toward it at `moveSpeed * 0.05` and face the movement
vector. -/
def updateGuardPatrol (sq : ℚ → ℚ) (atd : ℚ → ℚ → ℚ) (g : GuardS) : GuardS :=
  if g.patrolRoute.length = 0 then g
  else
    match (if 0 ≤ g.patrolIndex then g.patrolRoute.get? g.patrolIndex.toNat else none) with
    | none => g
    | some target =>
      let dx := target.x - g.position.x
      let dy := target.y - g.position.y
      let dist := sq (dx * dx + dy * dy)
      if dist < 0.2 then
        let idx := g.patrolIndex + g.patrolDirection
        if (g.patrolRoute.length : ℤ) ≤ idx then
          { g with patrolIndex := (g.patrolRoute.length : ℤ) - 2, patrolDirection := -1 }
        else if idx < 0 then
          { g with patrolIndex := 1, patrolDirection := 1 }
        else
          { g with patrolIndex := idx }
      else
        let speed := g.moveSpeed * 0.05
        { g with
          position := ⟨g.position.x + dx / dist * speed,
                       g.position.y + dy / dist * speed, g.position.z⟩,
          facing := atd dy dx }

/-- `Room.updateGuardSuspicious`: the alert timer counts down 50 ms per tick;
with a known last-seen position the guard advances toward it at
`moveSpeed * 0.03` while farther than `0.5`; on timeout it transitions to
`returning` and clears the last-seen position. -/
def updateGuardSuspicious (sq : ℚ → ℚ) (atd : ℚ → ℚ → ℚ) (g : GuardS) : GuardS :=
  let g1 := { g with alertTimer := g.alertTimer - 50 }
  let g2 :=
    match g1.lastSeenPlayerPos with
    | some p =>
      let dx := p.x - g1.position.x
      let dy := p.y - g1.position.y
      let dist := sq (dx * dx + dy * dy)
      if 0.5 < dist then
        let speed := g1.moveSpeed * 0.03
        { g1 with
          position := ⟨g1.position.x + dx / dist * speed,
                       g1.position.y + dy / dist * speed, g1.position.z⟩,
          facing := atd dy dx }
      else g1
    | none => g1
  if g2.alertTimer ≤ 0 then
    { g2 with alertState := .returning, lastSeenPlayerPos := none }
  else g2

/-- `Room.updateGuardAlert`: with no last-seen position, downgrade to
`suspicious` (timer 3000); otherwise chase it at `moveSpeed * 0.07` while
farther than `0.3`. -/
def updateGuardAlert (sq : ℚ → ℚ) (atd : ℚ → ℚ → ℚ) (g : GuardS) : GuardS :=
  match g.lastSeenPlayerPos with
  | none => { g with alertState := .suspicious, alertTimer := 3000 }
  | some p =>
    let dx := p.x - g.position.x
    let dy := p.y - g.position.y
    let dist := sq (dx * dx + dy * dy)
    if 0.3 < dist then
      let speed := g.moveSpeed * 0.07
      { g with
        position := ⟨g.position.x + dx / dist * speed,
                     g.position.y + dy / dist * speed, g.position.z⟩,
        facing := atd dy dx }
    else g

/-- Nearest-waypoint search of `Room.updateGuardReturning` (strict `<`
against a running minimum started at `Infinity`, so the earliest index wins
ties). -/
def nearestWaypoint (sq : ℚ → ℚ) (g : GuardS) : Option (ℕ × ℚ) :=
  (List.range g.patrolRoute.length).foldl
    (fun acc i =>
      match g.patrolRoute.get? i with
      | none => acc
      | some wp =>
        let dx := wp.x - g.position.x
        let dy := wp.y - g.position.y
        let dist := sq (dx * dx + dy * dy)
        match acc with
        | none => some (i, dist)
        | some best => if dist < best.2 then some (i, dist) else acc)
    none

/-- `Room.updateGuardReturning`: walk toward the nearest patrol waypoint at
`moveSpeed * 0.04`; on arrival (distance `< 0.3`) resume `idle` from that
waypoint index. -/
def updateGuardReturning (sq : ℚ → ℚ) (atd : ℚ → ℚ → ℚ) (g : GuardS) : GuardS :=
  if g.patrolRoute.length = 0 then { g with alertState := .idle }
  else
    match nearestWaypoint sq g with
    | none => g
    | some (nearestIndex, _) =>
      match g.patrolRoute.get? nearestIndex with
      | none => g
      | some target =>
        let dx := target.x - g.position.x
        let dy := target.y - g.position.y
        let dist := sq (dx * dx + dy * dy)
        if dist < 0.3 then
          { g with patrolIndex := (nearestIndex : ℤ), alertState := .idle }
        else
          let speed := g.moveSpeed * 0.04
          { g with
            position := ⟨g.position.x + dx / dist * speed,
                         g.position.y + dy / dist * speed, g.position.z⟩,
            facing := atd dy dx }

/-- The per-guard dispatch of `Room.updateGuards()`. -/
def stepGuard (sq : ℚ → ℚ) (atd : ℚ → ℚ → ℚ) (g : GuardS) : GuardS :=
  match g.alertState with
  | .idle => updateGuardPatrol sq atd g
  | .suspicious => updateGuardSuspicious sq atd g
  | .alert => updateGuardAlert sq atd g
  | .returning => updateGuardReturning sq atd g

/-! ### Distractions (`Room.updateDistractions`, `Room.createDistraction`) -/

/-- Hearing range of a distraction (whistle 8, rock 5). -/
def hearingRange (d : Distraction) : ℚ :=
  if d.type = .whistle then 8 else 5

/-- Whether the guard is within hearing range of the distraction. -/
def inHearing (d : Distraction) (g : GuardS) : Bool :=
  sqDistLt (d.position.x - g.position.x) (d.position.y - g.position.y)
    (hearingRange d)

/-- The inner-loop body of `updateDistractions`: a non-alert guard within
hearing range becomes suspicious (timer 5000) with the distraction's position
as its target. -/
def applyDistraction (d : Distraction) (g : GuardS) : GuardS :=
  if g.alertState = .alert then g
  else if inHearing d g then
    { g with alertState := .suspicious, alertTimer := 5000,
             lastSeenPlayerPos := some d.position }
  else g

/-- The expiry filter of `updateDistractions`
(`now - d.createdAt < d.duration`). -/
def liveDistractions (now : ℚ) (ds : List Distraction) : List Distraction :=
  ds.filter (fun d => decide (now - d.createdAt < d.duration))

/-- `Room.updateDistractions()`: drop expired distractions (by wall-clock
`now`), then let every remaining distraction attract every non-alert guard
within hearing range. -/
def updateDistractionsLists (now : ℚ) (ds : List Distraction) (gs : List GuardS) :
    List Distraction × List GuardS :=
  let ds1 := liveDistractions now ds
  (ds1, ds1.foldl (fun acc d => acc.map (applyDistraction d)) gs)

/-- `Room.createDistraction(position, type)`: stamped with the wall clock;
whistles last 3000 ms, rocks 2000 ms. -/
def createDistraction (now : ℚ) (position : WorldPos) (k : DKind)
    (ds : List Distraction) : List Distraction :=
  ds ++ [{ position := position, type := k, createdAt := now,
           duration := if k = .whistle then 3000 else 2000 }]

/-! ### Hazard collisions (`Room.checkHazardCollisions`) -/

/-- The inner loop of `checkHazardCollisions` for one entity: every active
hazard within `HAZARD.COLLISION_RADIUS` of the entity's current position
triggers `respawnEntity` (the position moves to the spawn immediately, so a
second overlapping hazard re-triggers only if the spawn is inside it too). -/
def hazardSweepEntity (c : Consts) (lvO : Option LevelData)
    (inters : List Interactable) (e : Entity) : Entity × List RespawnEvent :=
  inters.foldl
    (fun acc it =>
      match it.state with
      | .hazard active =>
        if active &&
            sqDistLt (acc.1.position.x - it.position.x)
              (acc.1.position.y - it.position.y) c.hazardCollisionRadius then
          let r := respawnEntity lvO acc.1
          (r.1, acc.2 ++ [r.2])
        else acc
      | _ => acc)
    (e, [])

/-- `Room.checkHazardCollisions()` over the entity list, collecting the
queued respawn events in order. -/
def checkHazardCollisionsLists (c : Consts) (lvO : Option LevelData)
    (inters : List Interactable) (ents : List Entity) :
    List Entity × List RespawnEvent :=
  ents.foldl
    (fun acc e =>
      let r := hazardSweepEntity c lvO inters e
      (acc.1 ++ [r.1], acc.2 ++ r.2))
    ([], [])

/-- Whether a single interactable is an active hazard whose center is within
`HAZARD.COLLISION_RADIUS` of `pos` (the trigger test of the
`checkHazardCollisions` inner loop). -/
def hazardHit (c : Consts) (it : Interactable) (pos : WorldPos) : Bool :=
  match it.state with
  | .hazard active =>
    active &&
      sqDistLt (pos.x - it.position.x) (pos.y - it.position.y)
        c.hazardCollisionRadius
  | _ => false

/-- One interactable of the `checkHazardCollisions` inner loop, named so the
fold can be split at the first triggering hazard. -/
def hazStep (c : Consts) (lvO : Option LevelData)
    (acc : Entity × List RespawnEvent) (it : Interactable) :
    Entity × List RespawnEvent :=
  match it.state with
  | .hazard active =>
    if active &&
        sqDistLt (acc.1.position.x - it.position.x)
          (acc.1.position.y - it.position.y) c.hazardCollisionRadius then
      let r := respawnEntity lvO acc.1
      (r.1, acc.2 ++ [r.2])
    else acc
  | _ => acc

/-! ### Guard detection (`Room.checkGuardDetection`) -/

/-- The detection inner loop for one guard: every entity the guard can see
sets `alert`, records that entity's position and refreshes the timer. -/
def detectEntities (atd : ℚ → ℚ → ℚ) (lvO : Option LevelData)
    (inters : List Interactable) (g : GuardS) (ents : List Entity) : GuardS :=
  ents.foldl
    (fun acc e =>
      if canGuardSeeEntity atd lvO inters acc e then
        { acc with alertState := .alert, lastSeenPlayerPos := some e.position,
                   alertTimer := 5000 }
      else acc)
    g

/-- The catch inner loop for one guard: any entity within `0.8` of an alert
guard causes a checkpoint respawn of all players (reason `'guard'`) and
demotes the guard to `returning`.  The loop keeps iterating over the (now
respawned, in place) entities. -/
def catchSweep (lvO : Option LevelData) (cp : Option (WorldPos × WorldPos))
    (g : GuardS) (ents : List Entity) :
    GuardS × List Entity × List RespawnEvent :=
  (List.range ents.length).foldl
    (fun acc i =>
      match acc.2.1.get? i with
      | none => acc
      | some e =>
        if sqDistLt (e.position.x - acc.1.position.x)
              (e.position.y - acc.1.position.y) 0.8 &&
            acc.1.alertState = .alert then
          let r := respawnPlayersAtCheckpoint lvO cp .guard acc.2.1
          ({ acc.1 with alertState := .returning, lastSeenPlayerPos := none },
           r.1, acc.2.2 ++ r.2)
        else acc)
    (g, ents, [])

/-- `Room.checkGuardDetection()`: for each guard in order, run the detection
loop, then the catch loop (whose respawns are visible to later guards). -/
def runDetection (atd : ℚ → ℚ → ℚ) (lvO : Option LevelData)
    (cp : Option (WorldPos × WorldPos)) (inters : List Interactable) :
    List GuardS → List Entity → List GuardS × List Entity × List RespawnEvent
  | [], ents => ([], ents, [])
  | g :: gs, ents =>
    let g1 := detectEntities atd lvO inters g ents
    let r := catchSweep lvO cp g1 ents
    let rest := runDetection atd lvO cp inters gs r.2.1
    (r.1 :: rest.1, rest.2.1, r.2.2 ++ rest.2.2)

/-- The fold body of the `checkGuardDetection` detection loop, named for
per-entity reasoning. -/
def detectStep (atd : ℚ → ℚ → ℚ) (lvO : Option LevelData)
    (inters : List Interactable) (acc : GuardS) (e : Entity) : GuardS :=
  if canGuardSeeEntity atd lvO inters acc e then
    { acc with alertState := .alert, lastSeenPlayerPos := some e.position,
               alertTimer := 5000 }
  else acc

/-- The fold body of the `checkGuardDetection` catch loop, named for
per-index reasoning. -/
def catchStep (lvO : Option LevelData) (cp : Option (WorldPos × WorldPos))
    (acc : GuardS × List Entity × List RespawnEvent) (i : ℕ) :
    GuardS × List Entity × List RespawnEvent :=
  match acc.2.1.get? i with
  | none => acc
  | some e =>
    if sqDistLt (e.position.x - acc.1.position.x)
          (e.position.y - acc.1.position.y) 0.8 &&
        acc.1.alertState = .alert then
      let r := respawnPlayersAtCheckpoint lvO cp .guard acc.2.1
      ({ acc.1 with alertState := .returning, lastSeenPlayerPos := none },
       r.1, acc.2.2 ++ r.2)
    else acc

/-- The effect of the whole `updateDistractions` guard loop on one guard:
every live distraction is applied in order. -/
def applyDistractionsTo (ds : List Distraction) (g : GuardS) : GuardS :=
  ds.foldl (fun g d => applyDistraction d g) g

/-! ### Puzzles (`Room.checkPuzzleCompletion`, `Room.checkObjective`) -/

/-- Read a field of a state record by name, as `checkObjective` does with
`(interactable.state)[key]`.  Fields of types the Room never conditions on
are not modelled and read as `undefined`. -/
def getField (st : IState) (k : String) : Option Prim :=
  match st with
  | .door isOpen locked requiresHeavy =>
    if k = "open" then some (.b isOpen)
    else if k = "locked" then some (.b locked)
    else if k = "requiresHeavy" then some (.b requiresHeavy)
    else none
  | .lever position requiresStrength =>
    if k = "position" then
      some (.s (match position with | .off => "off" | .on => "on" | .held => "held"))
    else if k = "requiresStrength" then some (.b requiresStrength)
    else none
  | .plate activated weightThreshold currentWeight =>
    if k = "activated" then some (.b activated)
    else if k = "weightThreshold" then
      some (.s (match weightThreshold with | .light => "light" | .heavy => "heavy"))
    else if k = "currentWeight" then some (.q currentWeight)
    else none
  | .crate gridX gridY beingPushed =>
    if k = "gridX" then some (.q gridX)
    else if k = "gridY" then some (.q gridY)
    else if k = "beingPushed" then some (.b beingPushed)
    else none
  | .winch extended operating requiresPower _ =>
    if k = "extended" then some (.q extended)
    else if k = "operating" then some (.b operating)
    else if k = "requiresPower" then some (.b requiresPower)
    else none
  | .button pressed momentary timerO timerDuration =>
    if k = "pressed" then some (.b pressed)
    else if k = "momentary" then some (.b momentary)
    else if k = "timer" then timerO.map .q
    else if k = "timerDuration" then timerDuration.map .q
    else none
  | .platform currentPosition moving direction speed _ =>
    if k = "currentPosition" then some (.q currentPosition)
    else if k = "moving" then some (.b moving)
    else if k = "direction" then some (.q direction)
    else if k = "speed" then some (.q speed)
    else none
  | .hazard active =>
    if k = "active" then some (.b active)
    else none
  | .conveyor active dirX dirY speed width length =>
    if k = "active" then some (.b active)
    else if k = "speed" then some (.q speed)
    else if k = "width" then some (.q width)
    else if k = "length" then some (.q length)
    else
      let _ := (dirX, dirY)
      none
  | .cameraNode => none
  | .other _ => none

/-- `Room.checkObjective(condition)`. -/
def checkObjective (inters : List Interactable) (ents : List Entity)
    (cond : PuzzleCondition) : Bool :=
  match cond.type with
  | .interactableState =>
    match cond.targetId, cond.state with
    | some tid, some expected =>
      match findById inters tid with
      | none => false
      | some it => expected.all (fun kv => getField it.state kv.1 = some kv.2)
    | _, _ => false
  | .bothPlayersInZone =>
    match cond.zoneMin, cond.zoneMax with
    | some zmin, some zmax =>
      let inZone := fun (e : Entity) =>
        decide (zmin.x ≤ e.position.x ∧ e.position.x ≤ zmax.x ∧
                zmin.y ≤ e.position.y ∧ e.position.y ≤ zmax.y)
      (ents.any (fun e => e.type = .dog && inZone e)) &&
      (ents.any (fun e => e.type = .panda && inZone e))
    | _, _ => false
  | .allObjectives => true

/-- One puzzle of the `checkPuzzleCompletion` loop: re-evaluate every
objective of a not-yet-completed puzzle, record the results, and on all
non-optional objectives holding mark it completed and unlock+open the reward
door (if the reward is a door). -/
def processPuzzle (ents : List Entity)
    (st : List (String × PuzzleSt) × List Interactable) (cfg : PuzzleConfig) :
    List (String × PuzzleSt) × List Interactable :=
  match st.1.lookup cfg.id with
  | none => st
  | some ps =>
    if ps.completed then st
    else
      let results := cfg.objectives.map (fun obj =>
        (obj, checkObjective st.2 ents obj.condition))
      let newObjectives := results.foldl
        (fun acc r => acc.map (fun kv => if kv.1 = r.1.id then (kv.1, r.2) else kv))
        ps.objectives
      let allRequired := results.all (fun r => r.1.optional || r.2)
      let ps1 : PuzzleSt := { completed := allRequired, objectives := newObjectives }
      let puzzles1 := st.1.map (fun kv => if kv.1 = cfg.id then (kv.1, ps1) else kv)
      let inters1 :=
        if allRequired then
          match cfg.completionReward with
          | some rid =>
            match findById st.2 rid with
            | some reward =>
              match reward.state with
              | .door _ _ rh =>
                updateById st.2 rid (fun j =>
                  match j.state with
                  | .door _ _ _ => { j with state := .door true false rh }
                  | _ => j)
              | _ => st.2
            | none => st.2
          | none => st.2
        else st.2
      (puzzles1, inters1)

/-- `Room.checkPuzzleCompletion()` (no-op with no level loaded). -/
def checkPuzzleCompletionLists (lvO : Option LevelData) (ents : List Entity)
    (puzzles : List (String × PuzzleSt)) (inters : List Interactable) :
    List (String × PuzzleSt) × List Interactable :=
  match lvO with
  | none => (puzzles, inters)
  | some lv => lv.puzzles.foldl (processPuzzle ents) (puzzles, inters)

/-! ### Pings (`Room.expirePings`) -/

/-- `Room.expirePings()`: purge every ping with `now ≥ expiresAt`. -/
def expirePingsList (now : ℚ) (pings : List Ping) : List Ping :=
  pings.filter (fun p => decide (now < p.expiresAt))

/-! ### World-level tick phases and `Room.tick()` -/

def updatePressurePlatesW (w : World) : World :=
  { w with interactables := updatePressurePlatesList w.entities w.interactables }

def updateWinchesW (w : World) : World :=
  { w with interactables := updateWinchesList w.interactables }

def updatePlatformsW (w : World) : World :=
  { w with interactables := updatePlatformsList w.interactables }

def updateTimedButtonsW (w : World) : World :=
  { w with interactables := updateTimedButtonsList w.interactables }

def updateConveyorsW (w : World) : World :=
  let r := updateConveyorsList w.entities w.interactables
  { w with entities := r.1, interactables := r.2 }

def updateGuardsW (sq : ℚ → ℚ) (atd : ℚ → ℚ → ℚ) (w : World) : World :=
  { w with guards := w.guards.map (stepGuard sq atd) }

def updateDistractionsW (now : ℚ) (w : World) : World :=
  let r := updateDistractionsLists now w.distractions w.guards
  { w with distractions := r.1, guards := r.2 }

def checkHazardCollisionsW (c : Consts) (w : World) : World :=
  let r := checkHazardCollisionsLists c w.level w.interactables w.entities
  { w with entities := r.1, pendingRespawns := w.pendingRespawns ++ r.2 }

def checkGuardDetectionW (atd : ℚ → ℚ → ℚ) (w : World) : World :=
  let r := runDetection atd w.level w.checkpointPosition w.interactables
    w.guards w.entities
  { w with guards := r.1, entities := r.2.1,
           pendingRespawns := w.pendingRespawns ++ r.2.2 }

def checkPuzzleCompletionW (w : World) : World :=
  let r := checkPuzzleCompletionLists w.level w.entities w.puzzles w.interactables
  { w with puzzles := r.1, interactables := r.2 }

def expirePingsW (now : ℚ) (w : World) : World :=
  { w with pings := expirePingsList now w.pings }

/-- The tick pipeline up to (and including) `checkHazardCollisions` — the
state `checkGuardDetection` then runs on. -/
def preDetection (sq : ℚ → ℚ) (atd : ℚ → ℚ → ℚ) (c : Consts) (now : ℚ)
    (w : World) : World :=
  checkHazardCollisionsW c
    (updateDistractionsW now
      (updateGuardsW sq atd
        (updateConveyorsW
          (updateTimedButtonsW
            (updatePlatformsW
              (updateWinchesW
                (updatePressurePlatesW { w with tickCount := w.tickCount + 1 })))))))

/-- `Room.tick()`: no-op while paused; otherwise increment the tick counter
and run the subsystems in the source's fixed order: pressure plates → winches
→ platforms → timed buttons → conveyors → guards → distractions → hazard
collisions → guard detection → puzzle completion → ping expiry.
`now` is the value of `Date.now()` during this tick (read by the distraction
filter and the ping expiry). -/
def tickStep (sq : ℚ → ℚ) (atd : ℚ → ℚ → ℚ) (c : Consts) (now : ℚ)
    (w : World) : World :=
  if w.paused then w
  else
    expirePingsW now
      (checkPuzzleCompletionW
        (checkGuardDetectionW atd (preDetection sq atd c now w)))

/-! ### Interactions (`Room.handleInteraction`, `Room.canInteract`,
`Room.processInteraction`, `Room.isValidCratePosition`) -/

/-- Result value of `handleInteraction` (`{success, newState?, reason?}`). -/
structure IResult where
  success : Bool
  newState : Option IState
  reason : Option String
deriving DecidableEq, Repr

/-- `Room.canInteract(role, interactable, action)`: role/type permission
gate.  Only the panda pushes crates or operates winches; pressure plates are
never directly interactable; strength-gated levers and heavy doors reject the
dog; locked doors reject everyone; only the dog uses camera nodes. -/
def canInteract (role : Role) (it : Interactable) (action : String) : Bool :=
  match it.state with
  | .crate _ _ _ => role = .panda && action = "push"
  | .winch _ _ _ _ => role = .panda
  | .plate _ _ _ => false
  | .lever _ requiresStrength =>
    if requiresStrength && role = .dog then false else true
  | .door _ locked requiresHeavy =>
    if locked then false
    else if requiresHeavy && role = .dog then false
    else true
  | .cameraNode => role = .dog
  | .button _ _ _ _ => true
  | _ => true

/-- `Room.isValidCratePosition(x, y)`: inside the 1-tile border of the level,
on a walkable tile that is neither water nor void, and not within the
`0.9`-box of any crate. -/
def isValidCratePosition (lvO : Option LevelData) (inters : List Interactable)
    (x y : ℚ) : Bool :=
  (match lvO with
   | none => true
   | some lv =>
     if x < 1 ∨ lv.width - 1 ≤ x ∨ y < 1 ∨ lv.height - 1 ≤ y then false
     else
       match tileAt lv ⌊x⌋ ⌊y⌋ with
       | none => true
       | some tile =>
         ! (!tile.walkable || tile.type = .water || tile.type = .voidT)) &&
  (inters.all (fun o =>
    if isCrate o then
      ! (decide (|o.position.x - x| < 0.9 ∧ |o.position.y - y| < 0.9))
    else true))

/-- The id `` `${role}_entity` `` of the entity controlled by a role. -/
def roleEntityId (role : Role) : String :=
  (match role with | .dog => "dog" | .panda => "panda") ++ "_entity"

/-- The target cell of a crate push: one unit from the crate along the
dominant axis of the pusher-to-crate offset.  On `|dx| > |dy|` the push is
along X (toward the sign of `dx`); otherwise — including the tie
`|dx| = |dy|` — it is along Y (toward the sign of `dy`, with `dy = 0`
giving `-1`). -/
def cratePushTarget (cratePos entityPos : WorldPos) : ℚ × ℚ :=
  let dx := cratePos.x - entityPos.x
  let dy := cratePos.y - entityPos.y
  if |dy| < |dx| then (cratePos.x + (if 0 < dx then 1 else -1), cratePos.y)
  else (cratePos.x, cratePos.y + (if 0 < dy then 1 else -1))

/-- `Room.processInteraction(interactable, action, role)` (the optional
`data` argument is unused by every case).  Returns the interaction result and
the updated interactable store. -/
def processInteraction (lvO : Option LevelData) (inters : List Interactable)
    (ents : List Entity) (it : Interactable) (action : String) (role : Role) :
    IResult × List Interactable :=
  let invalid : IResult × List Interactable :=
    ({ success := false, newState := none, reason := some "Invalid action" }, inters)
  match it.state with
  | .door isOpen locked rh =>
    if action = "toggle" then
      let newState : IState := .door (!isOpen) locked rh
      ({ success := true, newState := some newState, reason := none },
       updateById inters it.id (fun j =>
         match j.state with
         | .door _ _ _ => { j with state := newState }
         | _ => j))
    else invalid
  | .lever position rs =>
    if action = "toggle" then
      let newPos : LeverPos := if position = .off then .on else .off
      let newState : IState := .lever newPos rs
      let inters1 := updateById inters it.id (fun j =>
        match j.state with
        | .lever _ _ => { j with state := newState }
        | _ => j)
      ({ success := true, newState := some newState, reason := none },
       triggerLinkedObjects inters1 it)
    else invalid
  | .button _ momentary timerO timerDuration =>
    if action = "press" then
      let newState : IState := .button true momentary timerO timerDuration
      let inters1 := updateById inters it.id (fun j =>
        match j.state with
        | .button _ m t td => { j with state := .button true m t td }
        | _ => j)
      ({ success := true, newState := some newState, reason := none },
       triggerLinkedObjects inters1 it)
    else if action = "release" && momentary then
      let newState : IState := .button false momentary timerO timerDuration
      ({ success := true, newState := some newState, reason := none },
       updateById inters it.id (fun j =>
         match j.state with
         | .button _ m t td => { j with state := .button false m t td }
         | _ => j))
    else invalid
  | .crate _ _ _ =>
    if action = "push" then
      match ents.find? (fun e => e.id = roleEntityId role) with
      | none => invalid
      | some entity =>
        let dx := it.position.x - entity.position.x
        let dy := it.position.y - entity.position.y
        let pushX : ℚ := if |dy| < |dx| then (if 0 < dx then 1 else -1) else 0
        let pushY : ℚ := if |dy| < |dx| then 0 else (if 0 < dy then 1 else -1)
        let newX := it.position.x + pushX
        let newY := it.position.y + pushY
        if isValidCratePosition lvO inters newX newY then
          let newState : IState := .crate (round newX : ℤ) (round newY : ℤ) true
          ({ success := true, newState := some newState, reason := none },
           updateById inters it.id (fun j =>
             match j.state with
             | .crate _ _ _ =>
               { j with state := newState,
                        position := ⟨newX, newY, j.position.z⟩ }
             | _ => j))
          -- the source then schedules `setTimeout(() => beingPushed = false, 200)`,
          -- a real-time callback outside the tick pipeline (see C9)
        else
          ({ success := false, newState := none, reason := some "Cannot push there" },
           inters)
    else invalid
  | .winch extended _ rp pb =>
    if action = "operate_start" then
      let newState : IState := .winch extended true rp pb
      ({ success := true, newState := some newState, reason := none },
       updateById inters it.id (fun j =>
         match j.state with
         | .winch e _ rp2 pb2 => { j with state := .winch e true rp2 pb2 }
         | _ => j))
    else if action = "operate_stop" then
      let newState : IState := .winch extended false rp pb
      ({ success := true, newState := some newState, reason := none },
       updateById inters it.id (fun j =>
         match j.state with
         | .winch e _ rp2 pb2 => { j with state := .winch e false rp2 pb2 }
         | _ => j))
    else invalid
  | _ => invalid

/-- `Room.handleInteraction(playerId, targetId, action)`: resolve the
player's role and the target, gate through `canInteract` (failing with
"Permission denied" BEFORE any state change), then process. -/
def handleInteraction (lvO : Option LevelData) (players : List (String × Role))
    (ents : List Entity) (inters : List Interactable)
    (playerId targetId action : String) : IResult × List Interactable :=
  match players.lookup playerId with
  | none => ({ success := false, newState := none, reason := some "Invalid player" },
             inters)
  | some role =>
    match findById inters targetId with
    | none =>
      ({ success := false, newState := none, reason := some "Interactable not found" },
       inters)
    | some it =>
      if ! canInteract role it action then
        ({ success := false, newState := none, reason := some "Permission denied" },
         inters)
      else processInteraction lvO inters ents it action role

/-! ### Ping API (`Room.addPing`, `Room.removePing`) -/

/-- One step of the oldest-ping search of `addPing`. -/
def findOldestStep (role : Role) (acc : Option Ping) (p : Ping) : Option Ping :=
  if p.createdBy = role then
    match acc with
    | none => some p
    | some o => if p.createdAt < o.createdAt then some p else acc
  else acc

/-- The oldest-ping search of `addPing`: the first ping (in Map order) of the
role with strictly minimal `createdAt`. -/
def findOldestPing (role : Role) (pings : List Ping) : Option Ping :=
  pings.foldl (findOldestStep role) none

/-- `Room.addPing(playerId, position, pingType)`.  `now` is `Date.now()`;
`newId` stands for the randomly generated ping id.  Returns the created ping
(or `null`), the updated ping store, and the updated per-player
last-ping-time map. -/
def addPing (c : Consts) (now : ℚ) (players : List (String × Role))
    (lastPingTime : List (String × ℚ)) (pings : List Ping)
    (playerId : String) (position : WorldPos) (pingType : PingType)
    (newId : String) :
    Option Ping × List Ping × List (String × ℚ) :=
  match players.lookup playerId with
  | none => (none, pings, lastPingTime)
  | some role =>
    let lastPing := (lastPingTime.lookup playerId).getD 0
    if now - lastPing < c.pingCooldown then (none, pings, lastPingTime)
    else
      let playerPingCount := (pings.filter (fun p => p.createdBy = role)).length
      let pings1 :=
        if c.pingMaxPerPlayer ≤ playerPingCount then
          match findOldestPing role pings with
          | some oldest => pings.filter (fun p => p.id ≠ oldest.id)
          | none => pings
        else pings
      let ping : Ping :=
        { id := newId, position := position, type := pingType, createdBy := role,
          createdAt := now, expiresAt := now + c.pingLifetime }
      (some ping, pings1 ++ [ping],
       if (lastPingTime.lookup playerId).isSome then
         lastPingTime.map (fun kv => if kv.1 = playerId then (kv.1, now) else kv)
       else lastPingTime ++ [(playerId, now)])

/-- `Room.removePing(pingId, playerId)`: only the creator's role may remove
a ping. -/
def removePing (players : List (String × Role)) (pings : List Ping)
    (pingId playerId : String) : Bool × List Ping :=
  match pings.find? (fun p => p.id = pingId) with
  | none => (false, pings)
  | some ping =>
    if players.lookup playerId ≠ some ping.createdBy then (false, pings)
    else (true, pings.filter (fun p => p.id ≠ pingId))

/-! ### Concrete instances used by witnesses and counterexamples -/

/-- A walkable ground tile. -/
def tileG : TileData := ⟨.ground, 0, true⟩

/-- A non-walkable wall tile. -/
def tileW : TileData := ⟨.wall, 0, false⟩

/-- A small 4×4 test level, walkable except for a wall at tile (2,1). -/
def lvlA : LevelData :=
  { width := 4, height := 4,
    tiles := [[tileG, tileG, tileG, tileG],
              [tileG, tileG, tileW, tileG],
              [tileG, tileG, tileG, tileG],
              [tileG, tileG, tileG, tileG]],
    spawnDog := ⟨1, 1, 0⟩, spawnPanda := ⟨2, 2, 0⟩, puzzles := [] }

/-- A 3×3 test level that is entirely walls. -/
def lvlWalls : LevelData :=
  { width := 3, height := 3,
    tiles := [[tileW, tileW, tileW],
              [tileW, tileW, tileW],
              [tileW, tileW, tileW]],
    spawnDog := ⟨1, 1, 0⟩, spawnPanda := ⟨1, 1, 0⟩, puzzles := [] }

/-- Concrete constants for witnesses (the spec leaves the exact values to the
absent `shared/constants.ts`; the theorems hold for arbitrary values). -/
def constsA : Consts :=
  { dogCollisionRadius := 0.3, pandaCollisionRadius := 0.4,
    hazardCollisionRadius := 0.5, pingCooldown := 3000,
    pingMaxPerPlayer := 3, pingLifetime := 10000 }

/-- A crate at `(1, 1)`. -/
def crateA : Interactable := ⟨"crate_1", ⟨1, 1, 0⟩, .crate 1 1 false, []⟩

/-- The panda's entity standing at the origin — diagonally (dx = dy = 1)
from `crateA`. -/
def pandaAt00 : Entity := ⟨"panda_entity", .panda, ⟨0, 0, 0⟩, ⟨0, 0⟩, "S", "idle"⟩

/-- A locked, closed door. -/
def doorLockedA : Interactable := ⟨"door_1", ⟨3, 3, 0⟩, .door false true false, []⟩

/-- A lever linked to `doorLockedA`. -/
def leverA : Interactable := ⟨"lever_1", ⟨2, 2, 0⟩, .lever .off false, ["door_1"]⟩

/-- A momentary timed button with `timerDuration = 5000` and `timer`
initially `undefined`, linked to `doorB` (every timed button shipped in the
level data starts with `timer: undefined`). -/
def buttonTimedA : Interactable :=
  ⟨"button_1", ⟨0, 0, 0⟩, .button false true none (some 5000), ["door_A"]⟩

/-- An unlocked closed door linked from `buttonTimedA`. -/
def doorA : Interactable := ⟨"door_A", ⟨3, 3, 0⟩, .door false false false, []⟩

/-- The ping created by the witness's first `addPing` call. -/
def pingN1 : Ping := ⟨"n1", ⟨1, 1, 0⟩, .look, .dog, 5000, 15000⟩

/-- Three outstanding dog pings (the per-player maximum of `constsA`); the
oldest by `createdAt` is "b". -/
def pingsB : List Ping :=
  [⟨"a", ⟨0, 0, 0⟩, .look, .dog, 100, 10100⟩,
   ⟨"b", ⟨1, 0, 0⟩, .go, .dog, 50, 10050⟩,
   ⟨"c", ⟨2, 0, 0⟩, .wait, .dog, 200, 10200⟩]

/-- The interactable store right after `buttonTimedA` is pressed via
`processInteraction` at some tick T (the press toggles the linked door
open). -/
def pressedButtonInters : List Interactable :=
  (processInteraction none [buttonTimedA, doorA] [] buttonTimedA "press" .dog).2

/-- A heavy pressure plate at `(1, 1)` linked to `doorLockedA`. -/
def plateHeavyA : Interactable :=
  ⟨"plate_h", ⟨1, 1, 0⟩, .plate false .heavy 0, ["door_1"]⟩

/-- A light pressure plate at `(6, 6)` also linked to `doorLockedA`. -/
def plateLightA : Interactable :=
  ⟨"plate_l", ⟨6, 6, 0⟩, .plate false .light 0, ["door_1"]⟩

/-- The dog entity standing on `plateHeavyA`. -/
def dogOnPlate : Entity := ⟨"dog_entity", .dog, ⟨1, 1, 0⟩, ⟨0, 0⟩, "S", "idle"⟩

/-- The panda entity standing near `plateHeavyA` (within the 0.8 radius). -/
def pandaOnPlate : Entity :=
  ⟨"panda_entity", .panda, ⟨1.2, 1, 0⟩, ⟨0, 0⟩, "S", "idle"⟩

/-- A small world whose interactables are the heavy plate and its linked
door, with both entities standing on the plate, used by the C2 witness. -/
def plateWorldA : World :=
  { level := none, interactables := [plateHeavyA, doorLockedA],
    entities := [dogOnPlate, pandaOnPlate], guards := [], distractions := [],
    pings := [], puzzles := [], checkpointPosition := none,
    pendingRespawns := [], tickCount := 0, paused := false }

/-- The light plate `plateLightA` in its activated form (weight 1 on it). -/
def plateLightOn : Interactable :=
  ⟨"plate_l", ⟨6, 6, 0⟩, .plate true .light 1, ["door_1"]⟩

/-- The heavy plate `plateHeavyA` in its activated form (weight 2 on it). -/
def plateHeavyOn : Interactable :=
  ⟨"plate_h", ⟨1, 1, 0⟩, .plate true .heavy 2, ["door_1"]⟩

/-- Scenario B, first half: light plate inactive, heavy plate just
activated, gate door locked and closed. -/
def gateIntersHeavyOnly : List Interactable :=
  [plateLightA, plateHeavyOn, doorLockedA]

/-- Scenario B, second half: both plates activated. -/
def gateIntersBoth : List Interactable :=
  [plateLightOn, plateHeavyOn, doorLockedA]

/-- An active hazard at `(1, 1)`. -/
def hazardOn : Interactable := ⟨"hazard_1", ⟨1, 1, 0⟩, .hazard true, []⟩

/-- The dog entity standing exactly on `hazardOn` while running. -/
def dogAtHazard : Entity :=
  ⟨"dog_entity", .dog, ⟨1, 1, 0⟩, ⟨0, 0⟩, "S", "running"⟩

/-- A world with a checkpoint set at `(9, 9)` and the dog standing on an
active hazard (no level loaded, so the dog's spawn is `(5, 5)`). -/
def hazardWorldA : World :=
  { level := none, interactables := [hazardOn], entities := [dogAtHazard],
    guards := [], distractions := [], pings := [], puzzles := [],
    checkpointPosition := some (⟨9, 9, 0⟩, ⟨9, 9, 0⟩),
    pendingRespawns := [], tickCount := 0, paused := false }

/-- A whistle distraction created at wall-clock time 0 (duration 3000 ms). -/
def whistleAt0 : Distraction := ⟨⟨1, 0, 0⟩, .whistle, 0, 3000⟩

/-- A world whose only time-sensitive content is `whistleAt0`. -/
def distWorldA : World :=
  { level := none, interactables := [], entities := [], guards := [],
    distractions := [whistleAt0], pings := [], puzzles := [],
    checkpointPosition := none, pendingRespawns := [], tickCount := 0,
    paused := false }

/-- An idle guard at the origin with an empty patrol route, facing 0, with a
90-degree / range-5 vision cone. -/
def guardIdle : GuardS :=
  ⟨"guard_1", ⟨0, 0, 0⟩, 0, [], 0, 1, .idle, 0, none, 90, 5, 2⟩

/-- The panda standing at `(1, 0)`, one unit in front of `guardIdle`. -/
def entityAt10 : Entity :=
  ⟨"panda_entity", .panda, ⟨1, 0, 0⟩, ⟨0, 0⟩, "S", "idle"⟩

/-- A world with `guardIdle` and `entityAt10` in plain sight. -/
def guardWorldC5 : World :=
  { level := none, interactables := [], entities := [entityAt10],
    guards := [guardIdle], distractions := [], pings := [], puzzles := [],
    checkpointPosition := none, pendingRespawns := [], tickCount := 0,
    paused := false }

/-- `guardIdle` after the detection tick: alert, tracking the panda. -/
def gAlertAfter : GuardS :=
  { guardIdle with
      alertState := .alert, lastSeenPlayerPos := some ⟨1, 0, 0⟩,
      alertTimer := 5000 }

end Game

namespace Game

/-! ## Theorems -/

/-! ### Generic fold helpers -/

theorem foldl_preserve {α β : Type} {P : β → Prop} (f : β → α → β) :
    ∀ (l : List α) (init : β), P init → (∀ b a, P b → P (f b a)) →
      P (l.foldl f init) := by
  intro l
  induction l with
  | nil => intro init h _; exact h
  | cons x xs ih =>
    intro init h hstep
    exact ih (f init x) (hstep init x h) hstep

theorem find?_map_of_id (g : Interactable → Interactable)
    (hg : ∀ it, (g it).id = it.id) (j : String) :
    ∀ l : List Interactable,
      (l.map g).find? (fun it => it.id = j) =
        (l.find? (fun it => it.id = j)).map g := by
  intro l
  induction l with
  | nil => rfl
  | cons a l ih =>
    simp only [List.map_cons, List.find?, hg a]
    by_cases h : a.id = j
    · simp [h]
    · simp [h, ih]

theorem findById_updateById (l : List Interactable) (i : String)
    (f : Interactable → Interactable) (hf : ∀ it, (f it).id = it.id) :
    findById (updateById l i f) i = (findById l i).map f := by
  have hg : ∀ it, ((fun it => if it.id = i then f it else it) it).id = it.id := by
    intro it
    by_cases h : it.id = i <;> simp [h, hf]
  unfold findById updateById
  rw [find?_map_of_id _ hg i l]
  cases hfind : l.find? (fun it => it.id = i) with
  | none => rfl
  | some it =>
    have hid : it.id = i := by simpa using List.find?_some hfind
    simp [hid]

theorem findById_updateById_ne (l : List Interactable) (i j : String)
    (f : Interactable → Interactable) (hf : ∀ it, (f it).id = it.id)
    (hne : j ≠ i) :
    findById (updateById l i f) j = findById l j := by
  have hg : ∀ it, ((fun it => if it.id = i then f it else it) it).id = it.id := by
    intro it
    by_cases h : it.id = i <;> simp [h, hf]
  unfold findById updateById
  rw [find?_map_of_id _ hg j l]
  cases hfind : l.find? (fun it => it.id = j) with
  | none => rfl
  | some it =>
    have hid : it.id = j := by simpa using List.find?_some hfind
    have hni : it.id ≠ i := fun h => hne (hid ▸ h)
    simp [hni]

/-! ### C1: `validatePosition` -/

/-- C1 (counterexample): the claim says `validatePosition` "never returns a
position whose collision box overlaps a non-walkable tile or a closed door",
but when the current position is itself blocked and the direct move and both
slides fail, the source returns the current (blocked) position: on an
all-wall level the returned position `(1.5, 1.5)` fails
`isPositionWalkable`. -/
theorem validatePosition_blocked_current :
    validatePosition constsA (some lvlWalls) [] ⟨1.5, 1.5, 0⟩ ⟨1.6, 1.5, 0⟩ .dog =
      ⟨1.5, 1.5, 0⟩ ∧
    isPositionWalkable (some lvlWalls) []
      ((1.5 : ℚ)) ((1.5 : ℚ)) (collisionRadius constsA .dog) = false := by
  constructor <;> with_unfolding_all decide

/-- C1 (amended): `validatePosition` returns the candidate if it is walkable
for the role's collision radius; otherwise it tries `(candidateX, currentY)`
before `(currentX, candidateY)`; if both slides fail it returns the current
position unchanged.  Every returned position other than the kept current
position satisfies `isPositionWalkable` (its collision box overlaps no
non-walkable tile and no closed door), so in particular a walkable current
position is never exchanged for a blocked one. -/
theorem validatePosition_spec (c : Consts) (lvO : Option LevelData)
    (inters : List Interactable) (cur tgt : WorldPos) (role : Role) :
    (isPositionWalkable lvO inters tgt.x tgt.y (collisionRadius c role) = true →
      validatePosition c lvO inters cur tgt role = tgt) ∧
    (isPositionWalkable lvO inters tgt.x tgt.y (collisionRadius c role) = false →
      isPositionWalkable lvO inters tgt.x cur.y (collisionRadius c role) = true →
      validatePosition c lvO inters cur tgt role = ⟨tgt.x, cur.y, tgt.z⟩) ∧
    (isPositionWalkable lvO inters tgt.x tgt.y (collisionRadius c role) = false →
      isPositionWalkable lvO inters tgt.x cur.y (collisionRadius c role) = false →
      isPositionWalkable lvO inters cur.x tgt.y (collisionRadius c role) = true →
      validatePosition c lvO inters cur tgt role = ⟨cur.x, tgt.y, tgt.z⟩) ∧
    (isPositionWalkable lvO inters tgt.x tgt.y (collisionRadius c role) = false →
      isPositionWalkable lvO inters tgt.x cur.y (collisionRadius c role) = false →
      isPositionWalkable lvO inters cur.x tgt.y (collisionRadius c role) = false →
      validatePosition c lvO inters cur tgt role = cur) ∧
    (validatePosition c lvO inters cur tgt role = cur ∨
      isPositionWalkable lvO inters
        (validatePosition c lvO inters cur tgt role).x
        (validatePosition c lvO inters cur tgt role).y
        (collisionRadius c role) = true) := by
  cases lvO with
  | none =>
    refine ⟨fun _ => rfl, fun h _ => ?_, fun h _ _ => ?_, fun h _ _ => ?_, ?_⟩
    · exact absurd h (by simp [isPositionWalkable])
    · exact absurd h (by simp [isPositionWalkable])
    · exact absurd h (by simp [isPositionWalkable])
    · exact Or.inr rfl
  | some lv =>
    unfold validatePosition
    dsimp only
    split_ifs with h1 h2 h3
    · exact ⟨fun _ => rfl, fun h _ => by simp [h1] at h,
        fun h _ _ => by simp [h1] at h, fun h _ _ => by simp [h1] at h,
        Or.inr h1⟩
    · exact ⟨fun h => by simp [h] at h1, fun _ _ => rfl,
        fun _ h _ => by simp [h2] at h, fun _ h _ => by simp [h2] at h,
        Or.inr h2⟩
    · exact ⟨fun h => by simp [h] at h1, fun _ h => by simp [h] at h2,
        fun _ _ _ => rfl, fun _ _ h => by simp [h3] at h, Or.inr h3⟩
    · exact ⟨fun h => by simp [h] at h1, fun _ h => by simp [h] at h2,
        fun _ _ h => by simp [h] at h3, fun _ _ _ => rfl, Or.inl rfl⟩

/-- C1 (witness): on the small level `lvlA`, the direct move from
`(1.5, 2.5)` to `(2.5, 1.5)` is blocked by the wall tile, the X-slide
`(2.5, 2.5)` is walkable, and `validatePosition` returns the X-slide. -/
theorem validatePosition_spec_witness :
    (isPositionWalkable (some lvlA) [] ((2.5 : ℚ)) ((1.5 : ℚ))
        (collisionRadius constsA .dog) = false ∧
      isPositionWalkable (some lvlA) [] ((2.5 : ℚ)) ((2.5 : ℚ))
        (collisionRadius constsA .dog) = true) ∧
    validatePosition constsA (some lvlA) [] ⟨1.5, 2.5, 0⟩ ⟨2.5, 1.5, 0⟩ .dog =
      ⟨2.5, 2.5, 0⟩ := by
  refine ⟨⟨by with_unfolding_all decide, by with_unfolding_all decide⟩, ?_⟩
  exact (validatePosition_spec constsA (some lvlA) [] ⟨1.5, 2.5, 0⟩ ⟨2.5, 1.5, 0⟩
    .dog).2.1 (by with_unfolding_all decide) (by with_unfolding_all decide)

/-! ### C7: crate pushing -/

/-- C7 (counterexample): with the panda at `(0, 0)` and the crate at
`(1, 1)` the offsets tie (`|dx| = |dy| = 1`); the claim says the tie resolves
toward the X axis (target `(2, 1)`), but the source's
`Math.abs(dx) > Math.abs(dy)` test sends ties to the Y branch: the push
succeeds and the crate ends at `(1, 2)`, not `(2, 1)`. -/
theorem cratePush_tie_counterexample :
    (processInteraction none [crateA] [pandaAt00] crateA "push" .panda).2 =
      [{ crateA with position := ⟨1, 2, 0⟩, state := .crate 1 2 true }] ∧
    ((⟨1, 2, 0⟩ : WorldPos) ≠ ⟨2, 1, 0⟩) := by
  constructor
  · with_unfolding_all decide
  · with_unfolding_all decide

/-- C7 (amended): a crate push via `processInteraction` infers its direction
from the dominant axis of the pusher-to-crate offset with ties resolved
toward the Y axis (not X); the target cell is one unit from the crate in that
direction; the push is accepted — the crate is moved to the target, its grid
coordinates rounded, `beingPushed` set — exactly when `isValidCratePosition`
holds of the target (in-bounds, on a walkable non-water non-void tile, and
not within the fixed `0.9` proximity box of another crate); otherwise the
push fails and the interactable store is unchanged. -/
theorem cratePush_spec (lvO : Option LevelData) (inters : List Interactable)
    (ents : List Entity) (it : Interactable) (gx gy : ℚ) (bp : Bool)
    (role : Role) (entity : Entity)
    (hstate : it.state = .crate gx gy bp)
    (hent : ents.find? (fun e => e.id = roleEntityId role) = some entity)
    (hfind : findById inters it.id = some it) :
    (isValidCratePosition lvO inters (cratePushTarget it.position entity.position).1
        (cratePushTarget it.position entity.position).2 = true →
      (processInteraction lvO inters ents it "push" role).1.success = true ∧
      findById (processInteraction lvO inters ents it "push" role).2 it.id =
        some { it with
          position := ⟨(cratePushTarget it.position entity.position).1,
                       (cratePushTarget it.position entity.position).2,
                       it.position.z⟩,
          state := .crate
            ((round (cratePushTarget it.position entity.position).1 : ℤ) : ℚ)
            ((round (cratePushTarget it.position entity.position).2 : ℤ) : ℚ)
            true } ∧
      (∀ j, j ≠ it.id →
        findById (processInteraction lvO inters ents it "push" role).2 j =
          findById inters j)) ∧
    (isValidCratePosition lvO inters (cratePushTarget it.position entity.position).1
        (cratePushTarget it.position entity.position).2 = false →
      processInteraction lvO inters ents it "push" role =
        ({ success := false, newState := none, reason := some "Cannot push there" },
         inters)) := by
  obtain ⟨iid, ipos, istate, ilinks⟩ := it
  dsimp only at hstate
  subst hstate
  simp only [processInteraction, hent, cratePushTarget]
  by_cases hdom :
      |ipos.y - entity.position.y| < |ipos.x - entity.position.x| <;>
    simp only [hdom, if_true, if_false, reduceIte, add_zero] <;>
    constructor
  · intro hvalid
    simp only [hvalid, if_true, reduceIte]
    refine ⟨trivial, ?_, ?_⟩
    · rw [findById_updateById _ _ _
        (by intro j; obtain ⟨a, b, s, d⟩ := j; cases s <;> rfl), hfind]
      rfl
    · intro j hj
      exact findById_updateById_ne _ _ _ _
        (by intro j; obtain ⟨a, b, s, d⟩ := j; cases s <;> rfl) hj
  · intro hinvalid
    simp only [sub_pos] at hinvalid
    simp [hinvalid]
  · intro hvalid
    simp only [hvalid, if_true, reduceIte]
    refine ⟨trivial, ?_, ?_⟩
    · rw [findById_updateById _ _ _
        (by intro j; obtain ⟨a, b, s, d⟩ := j; cases s <;> rfl), hfind]
      rfl
    · intro j hj
      exact findById_updateById_ne _ _ _ _
        (by intro j; obtain ⟨a, b, s, d⟩ := j; cases s <;> rfl) hj
  · intro hinvalid
    simp only [sub_pos] at hinvalid
    simp [hinvalid]

/-- C7 (witness): the tie push of `crateA` by `pandaAt00` is valid and the
amended theorem applies, yielding the crate at the Y-axis target `(1, 2)`
with `beingPushed` set. -/
theorem cratePush_spec_witness :
    (crateA.state = .crate 1 1 false ∧
      [pandaAt00].find? (fun e => e.id = roleEntityId .panda) = some pandaAt00 ∧
      findById [crateA] crateA.id = some crateA ∧
      isValidCratePosition none [crateA]
        (cratePushTarget crateA.position pandaAt00.position).1
        (cratePushTarget crateA.position pandaAt00.position).2 = true) ∧
    (processInteraction none [crateA] [pandaAt00] crateA "push" .panda).1.success =
      true ∧
    findById (processInteraction none [crateA] [pandaAt00] crateA "push" .panda).2
        crateA.id =
      some { crateA with
        position := ⟨(cratePushTarget crateA.position pandaAt00.position).1,
                     (cratePushTarget crateA.position pandaAt00.position).2,
                     crateA.position.z⟩,
        state := .crate
          ((round (cratePushTarget crateA.position pandaAt00.position).1 : ℤ) : ℚ)
          ((round (cratePushTarget crateA.position pandaAt00.position).2 : ℤ) : ℚ)
          true } := by
  have happ := cratePush_spec none [crateA] [pandaAt00] crateA 1 1 false .panda
    pandaAt00 rfl (by with_unfolding_all decide) (by with_unfolding_all decide)
  have hvalid : isValidCratePosition none [crateA]
      (cratePushTarget crateA.position pandaAt00.position).1
      (cratePushTarget crateA.position pandaAt00.position).2 = true := by
    with_unfolding_all decide
  exact ⟨⟨rfl, by with_unfolding_all decide, by with_unfolding_all decide, hvalid⟩,
    (happ.1 hvalid).1, (happ.1 hvalid).2.1⟩

/-! ### C10: link propagation ignores door locks -/

theorem findById_triggerStep_ne (acc : List Interactable) (lid j : String)
    (hne : j ≠ lid) :
    findById (triggerLinkedStep acc lid) j = findById acc j := by
  unfold triggerLinkedStep
  cases h : findById acc lid with
  | none => rfl
  | some linked =>
    dsimp only
    cases hs : linked.state <;> dsimp only <;>
      first
        | rfl
        | (refine findById_updateById_ne _ _ _ _ ?_ hne
           intro it
           obtain ⟨a, b, s, d⟩ := it
           cases s <;> rfl)

theorem findById_triggerStep_door (acc : List Interactable) (d : Interactable)
    (o l rh : Bool) (hfind : findById acc d.id = some d)
    (hd : d.state = .door o l rh) :
    findById (triggerLinkedStep acc d.id) d.id =
      some { d with state := .door (!o) l rh } := by
  obtain ⟨iid, ipos, istate, ilinks⟩ := d
  dsimp only at hd hfind ⊢
  subst hd
  unfold triggerLinkedStep
  rw [hfind]
  dsimp only
  rw [findById_updateById _ _ _
    (by intro it; obtain ⟨a, b, s, dd⟩ := it; cases s <;> rfl), hfind]
  rfl

theorem trigger_fold_keep (d : Interactable) :
    ∀ (L : List String) (acc : List Interactable), L.count d.id = 0 →
      findById (L.foldl triggerLinkedStep acc) d.id = findById acc d.id := by
  intro L
  induction L with
  | nil => intro acc _; rfl
  | cons x L ih =>
    intro acc hcount
    have hx : d.id ≠ x := by
      intro h
      subst h
      rw [List.count_cons_self] at hcount
      omega
    have hL : L.count d.id = 0 := by
      rwa [List.count_cons_of_ne hx] at hcount
    rw [List.foldl_cons, ih (triggerLinkedStep acc x) hL,
      findById_triggerStep_ne acc x d.id hx]

theorem trigger_fold_flip (d : Interactable) (o l rh : Bool)
    (hd : d.state = .door o l rh) :
    ∀ (L : List String) (acc : List Interactable),
      findById acc d.id = some d → L.count d.id = 1 →
      findById (L.foldl triggerLinkedStep acc) d.id =
        some { d with state := .door (!o) l rh } := by
  intro L
  induction L with
  | nil => intro acc _ hcount; simp [List.count_nil] at hcount
  | cons x L ih =>
    intro acc hfind hcount
    by_cases hx : d.id = x
    · subst hx
      rw [List.count_cons_self] at hcount
      have hL : L.count d.id = 0 := by omega
      rw [List.foldl_cons, trigger_fold_keep d L _ hL,
        findById_triggerStep_door acc d o l rh hfind hd]
    · have hL : L.count d.id = 1 := by
        rwa [List.count_cons_of_ne hx] at hcount
      rw [List.foldl_cons]
      exact ih (triggerLinkedStep acc x)
        (by rw [findById_triggerStep_ne acc x d.id hx]; exact hfind) hL

/-- C10: a lever toggle or button press that fires link propagation flips
each linked door\'s `open` flag regardless of that door\'s `locked` flag
(`triggerLinkedObjects` toggles with no lock check), while the `locked` flag
blocks direct `handleInteraction` on the door itself with "Permission denied"
before any state change. -/
theorem linked_toggle_ignores_lock (inters : List Interactable)
    (source d : Interactable) (o l rh : Bool)
    (hstate : d.state = .door o l rh)
    (hfind : findById inters d.id = some d)
    (hcount : source.linkedIds.count d.id = 1) :
    findById (triggerLinkedObjects inters source) d.id =
      some { d with state := .door (!o) l rh } ∧
    (l = true → ∀ (lvO : Option LevelData) (players : List (String × Role))
      (ents : List Entity) (playerId action : String) (role : Role),
      players.lookup playerId = some role →
      handleInteraction lvO players ents inters playerId d.id action =
        ({ success := false, newState := none, reason := some "Permission denied" },
         inters)) := by
  constructor
  · exact trigger_fold_flip d o l rh hstate source.linkedIds inters hfind hcount
  · intro hl lvO players ents playerId action role hrole
    subst hl
    unfold handleInteraction
    rw [hrole, hfind]
    dsimp only
    have hcan : canInteract role d action = false := by
      obtain ⟨iid, ipos, istate, ilinks⟩ := d
      dsimp only at hstate
      subst hstate
      simp [canInteract]
    rw [hcan]
    rfl

/-- C10 (witness): toggling `leverA` (its link list contains the locked
closed door once) opens the door even though it is locked, and a direct
`toggle` on the locked door is rejected with "Permission denied". -/
theorem linked_toggle_ignores_lock_witness :
    (doorLockedA.state = .door false true false ∧
      findById [leverA, doorLockedA] doorLockedA.id = some doorLockedA ∧
      leverA.linkedIds.count doorLockedA.id = 1 ∧
      ([("p1", Role.dog)] : List (String × Role)).lookup "p1" = some Role.dog) ∧
    findById (triggerLinkedObjects [leverA, doorLockedA] leverA) doorLockedA.id =
      some { doorLockedA with state := .door true true false } ∧
    handleInteraction none [("p1", Role.dog)] [] [leverA, doorLockedA] "p1"
        doorLockedA.id "toggle" =
      ({ success := false, newState := none, reason := some "Permission denied" },
       [leverA, doorLockedA]) := by
  have happ := linked_toggle_ignores_lock [leverA, doorLockedA] leverA doorLockedA
    false true false rfl (by with_unfolding_all decide) (by with_unfolding_all decide)
  exact ⟨⟨rfl, by with_unfolding_all decide, by with_unfolding_all decide,
      by with_unfolding_all decide⟩,
    happ.1, happ.2 rfl none [("p1", Role.dog)] [] "p1" "toggle" Role.dog
      (by with_unfolding_all decide)⟩

/-! ### C4: timed buttons never auto-release (code bug) -/

/-- C4 (code bug): `processInteraction`'s `press` case sets `pressed = true`
and fires the linked triggers, but never initialises `state.timer`, and every
timed button in the level data starts with `timer: undefined`; since
`updateTimedButtons` only counts down when `state.timer !== undefined`, a
pressed timed button with `timerDuration = 5000` stays `pressed` with its
timer undefined after every number of ticks — in particular after the 100
ticks at which the claim (and the source's own doc comment, "they
auto-release after their timer expires") expects the auto-release — and its
linked door is never re-fired (it stays open from the press, never toggled
off). -/
theorem timedButton_never_auto_releases :
    (∀ n : ℕ, findById (updateTimedButtonsList^[n] pressedButtonInters) "button_1" =
        some { buttonTimedA with state := .button true true none (some 5000) }) ∧
    (∀ n : ℕ, findById (updateTimedButtonsList^[n] pressedButtonInters) "door_A" =
        some { doorA with state := .door true false false }) ∧
    findById (updateTimedButtonsList^[100] pressedButtonInters) "button_1" =
      some { buttonTimedA with state := .button true true none (some 5000) } := by
  have h0 : pressedButtonInters =
      [{ buttonTimedA with state := .button true true none (some 5000) },
       { doorA with state := .door true false false }] := by
    simp [pressedButtonInters, processInteraction, buttonTimedA, doorA,
      triggerLinkedObjects, triggerLinkedStep, findById, updateById, roleEntityId]
  have hfix : updateTimedButtonsList pressedButtonInters = pressedButtonInters := by
    rw [h0]
    decide
  have hiter : ∀ n : ℕ,
      updateTimedButtonsList^[n] pressedButtonInters = pressedButtonInters :=
    fun n => Function.iterate_fixed hfix n
  refine ⟨fun n => ?_, fun n => ?_, ?_⟩
  · rw [hiter n, h0]
    decide
  · rw [hiter n, h0]
    decide
  · rw [hiter 100, h0]
    decide

/-! ### C8: `addPing` rate limiting and eviction -/

theorem lookup_setKey (l : List (String × ℚ)) (k : String) (v : ℚ) :
    (if (l.lookup k).isSome then
        l.map (fun kv => if kv.1 = k then (kv.1, v) else kv)
      else l ++ [(k, v)]).lookup k = some v := by
  split_ifs with h
  · revert h
    induction l with
    | nil =>
      intro h
      rw [List.lookup_nil] at h
      exact Bool.noConfusion h
    | cons x l ih =>
      intro h
      obtain ⟨xk, xv⟩ := x
      by_cases hx : k = xk
      · simp [List.lookup_cons, beq_iff_eq, hx]
      · have hbeq : (k == xk) = false := beq_false_of_ne hx
        have hx2 : ¬ xk = k := fun he => hx he.symm
        simp only [List.lookup_cons, hbeq] at h
        simp only [List.map_cons, if_neg hx2, List.lookup_cons, hbeq]
        exact ih h
  · have h0 : l.lookup k = none := by
      cases hh : l.lookup k with
      | none => rfl
      | some b => rw [hh] at h; simp at h
    rw [List.lookup_append, h0]
    simp [List.lookup_cons, beq_iff_eq]

theorem findOldestStep_some (role : Role) (p : Ping) (acc : Option Ping) (o : Ping)
    (hacc : ∀ x, acc = some x → x.createdBy = role)
    (ho : findOldestStep role acc p = some o) :
    (acc = some o ∨ o = p) ∧ o.createdBy = role ∧
    (∀ o2, acc = some o2 → o.createdAt ≤ o2.createdAt) ∧
    (p.createdBy = role → o.createdAt ≤ p.createdAt) := by
  cases acc with
  | none =>
    unfold findOldestStep at ho
    by_cases hpb : p.createdBy = role
    · rw [if_pos hpb] at ho
      dsimp only at ho
      injection ho with ho
      subst ho
      exact ⟨Or.inr rfl, hpb, fun o2 h => Option.noConfusion h, fun _ => le_rfl⟩
    · rw [if_neg hpb] at ho
      exact Option.noConfusion ho
  | some a =>
    unfold findOldestStep at ho
    by_cases hpb : p.createdBy = role
    · rw [if_pos hpb] at ho
      dsimp only at ho
      by_cases hlt : p.createdAt < a.createdAt
      · rw [if_pos hlt] at ho
        injection ho with ho
        subst ho
        refine ⟨Or.inr rfl, hpb, ?_, fun _ => le_rfl⟩
        intro o2 h
        injection h with h
        subst h
        exact le_of_lt hlt
      · rw [if_neg hlt] at ho
        injection ho with ho
        subst ho
        refine ⟨Or.inl rfl, hacc a rfl, ?_, fun _ => le_of_not_lt hlt⟩
        intro o2 h
        injection h with h
        subst h
        exact le_rfl
    · rw [if_neg hpb] at ho
      injection ho with ho
      subst ho
      refine ⟨Or.inl rfl, hacc a rfl, ?_, fun h => absurd h hpb⟩
      intro o2 h
      injection h with h
      subst h
      exact le_rfl

theorem findOldestStep_none (role : Role) (p : Ping) (acc : Option Ping)
    (h : findOldestStep role acc p = none) :
    acc = none ∧ ¬ p.createdBy = role := by
  cases acc with
  | none =>
    unfold findOldestStep at h
    by_cases hpb : p.createdBy = role
    · rw [if_pos hpb] at h
      exact Option.noConfusion h
    · exact ⟨rfl, hpb⟩
  | some a =>
    unfold findOldestStep at h
    by_cases hpb : p.createdBy = role
    · rw [if_pos hpb] at h
      dsimp only at h
      by_cases hlt : p.createdAt < a.createdAt
      · rw [if_pos hlt] at h
        exact Option.noConfusion h
      · rw [if_neg hlt] at h
        exact Option.noConfusion h
    · rw [if_neg hpb] at h
      exact Option.noConfusion h

theorem findOldest_go (role : Role) :
    ∀ (l : List Ping) (acc : Option Ping),
      (∀ o, acc = some o → o.createdBy = role) →
      (match l.foldl (findOldestStep role) acc with
       | none => acc = none ∧ ∀ p ∈ l, p.createdBy ≠ role
       | some o =>
         (acc = some o ∨ o ∈ l) ∧ o.createdBy = role ∧
         (∀ p ∈ l, p.createdBy = role → o.createdAt ≤ p.createdAt) ∧
         (∀ o2, acc = some o2 → o.createdAt ≤ o2.createdAt)) := by
  intro l
  induction l with
  | nil =>
    intro acc hacc
    cases acc with
    | none => exact ⟨rfl, by simp⟩
    | some o =>
      refine ⟨Or.inl rfl, hacc o rfl, by simp, ?_⟩
      intro o2 h
      injection h with h
      subst h
      exact le_rfl
  | cons p l ih =>
    intro acc hacc
    rw [List.foldl_cons]
    have hacc2 : ∀ o, findOldestStep role acc p = some o → o.createdBy = role :=
      fun o ho => (findOldestStep_some role p acc o hacc ho).2.1
    have ihr := ih (findOldestStep role acc p) hacc2
    cases hres : l.foldl (findOldestStep role) (findOldestStep role acc p) with
    | none =>
      rw [hres] at ihr
      obtain ⟨hstep0, hrest⟩ := ihr
      obtain ⟨haccn, hpnr⟩ := findOldestStep_none role p acc hstep0
      refine ⟨haccn, ?_⟩
      intro q hq
      rcases List.mem_cons.mp hq with rfl | hq2
      · exact hpnr
      · exact hrest q hq2
    | some o =>
      rw [hres] at ihr
      obtain ⟨hmem, hby, hmin, hup⟩ := ihr
      refine ⟨?_, hby, ?_, ?_⟩
      · rcases hmem with hstep | hmem2
        · rcases (findOldestStep_some role p acc o hacc hstep).1 with hacc0 | hop
          · exact Or.inl hacc0
          · exact Or.inr (hop ▸ List.mem_cons_self p l)
        · exact Or.inr (List.mem_cons_of_mem p hmem2)
      · intro q hq hqb
        rcases List.mem_cons.mp hq with rfl | hq2
        · cases hs : findOldestStep role acc q with
          | none => exact absurd hqb (findOldestStep_none role q acc hs).2
          | some o3 =>
            have hf := findOldestStep_some role q acc o3 hacc hs
            exact le_trans (hup o3 hs) (hf.2.2.2 hqb)
        · exact hmin q hq2 hqb
      · intro o2 hacc2eq
        cases hs : findOldestStep role acc p with
        | none =>
          rw [(findOldestStep_none role p acc hs).1] at hacc2eq
          exact Option.noConfusion hacc2eq
        | some o3 =>
          have hf := findOldestStep_some role p acc o3 hacc hs
          exact le_trans (hup o3 hs) (hf.2.2.1 o2 hacc2eq)

theorem filter_ne_id_length (o : Ping) :
    ∀ l : List Ping, o ∈ l → (l.map (fun p => p.id)).Nodup →
      (l.filter (fun p => p.id ≠ o.id)).length + 1 = l.length := by
  intro l
  induction l with
  | nil => intro h _; simp at h
  | cons x l ih =>
    intro hmem hnd
    simp only [List.map_cons, List.nodup_cons] at hnd
    by_cases hx : x.id = o.id
    · have hkeep : l.filter (fun p => p.id ≠ o.id) = l := by
        apply List.filter_eq_self.mpr
        intro p hp
        have : ¬ p.id = o.id := by
          intro hpo
          exact hnd.1 (hx ▸ hpo ▸ List.mem_map_of_mem (fun q => q.id) hp)
        simpa using this
      rw [List.filter_cons, if_neg (by simp [hx]), hkeep]
      simp
    · have ho : o ∈ l := by
        rcases List.mem_cons.mp hmem with rfl | h2
        · exact absurd rfl hx
        · exact h2
      rw [List.filter_cons, if_pos (by simpa using hx)]
      simp only [List.length_cons]
      have := ih ho hnd.2
      omega

/-- C8: `addPing` is rate-limited per player — a second call within
`PING.COOLDOWN` of that player's previous successful ping returns `null` and
leaves the ping store and the last-ping-time map unchanged — and a call made
while the player already has `PING.MAX_PER_PLAYER` pings outstanding first
removes that player's single oldest ping by `createdAt` (exactly one entry is
dropped) and then appends the new ping. -/
theorem addPing_spec (c : Consts) (players : List (String × Role)) :
    (∀ (lpt : List (String × ℚ)) (pings : List Ping) (pid : String)
        (pos : WorldPos) (ptype : PingType) (nid : String) (now1 : ℚ)
        (p1 : Ping) (pings1 : List Ping) (lpt1 : List (String × ℚ))
        (pos2 : WorldPos) (ptype2 : PingType) (nid2 : String) (now2 : ℚ),
      addPing c now1 players lpt pings pid pos ptype nid = (some p1, pings1, lpt1) →
      now2 - now1 < c.pingCooldown →
      addPing c now2 players lpt1 pings1 pid pos2 ptype2 nid2 =
        (none, pings1, lpt1)) ∧
    (∀ (now : ℚ) (lpt : List (String × ℚ)) (pings : List Ping) (pid : String)
        (pos : WorldPos) (ptype : PingType) (nid : String) (role : Role),
      players.lookup pid = some role →
      ¬ now - (lpt.lookup pid).getD 0 < c.pingCooldown →
      c.pingMaxPerPlayer ≤ (pings.filter (fun p => p.createdBy = role)).length →
      0 < c.pingMaxPerPlayer →
      (pings.map (fun p => p.id)).Nodup →
      ∃ oldest, findOldestPing role pings = some oldest ∧ oldest ∈ pings ∧
        oldest.createdBy = role ∧
        (∀ p ∈ pings, p.createdBy = role → oldest.createdAt ≤ p.createdAt) ∧
        (addPing c now players lpt pings pid pos ptype nid).1 =
          some { id := nid, position := pos, type := ptype, createdBy := role,
                 createdAt := now, expiresAt := now + c.pingLifetime } ∧
        (addPing c now players lpt pings pid pos ptype nid).2.1 =
          pings.filter (fun p => p.id ≠ oldest.id) ++
            [{ id := nid, position := pos, type := ptype, createdBy := role,
               createdAt := now, expiresAt := now + c.pingLifetime }] ∧
        (pings.filter (fun p => p.id ≠ oldest.id)).length + 1 = pings.length) := by
  constructor
  · intro lpt pings pid pos ptype nid now1 p1 pings1 lpt1 pos2 ptype2 nid2 now2 h1 h2
    unfold addPing at h1 ⊢
    cases hrole : players.lookup pid with
    | none => rfl
    | some role =>
      rw [hrole] at h1
      dsimp only at h1 ⊢
      by_cases hcd : now1 - (lpt.lookup pid).getD 0 < c.pingCooldown
      · rw [if_pos hcd] at h1
        exact absurd (congrArg (fun t => t.1) h1) (by simp)
      · rw [if_neg hcd] at h1
        have e2 := congrArg (fun t : Option Ping × List Ping × List (String × ℚ) =>
          t.2.1) h1
        have e3 := congrArg (fun t : Option Ping × List Ping × List (String × ℚ) =>
          t.2.2) h1
        dsimp only at e2 e3
        have hl : lpt1.lookup pid = some now1 := by
          rw [← e3]
          exact lookup_setKey lpt pid now1
        rw [hl]
        simp only [Option.getD_some]
        rw [if_pos h2]
  · intro now lpt pings pid pos ptype nid role hrole hcd hmax hpos hnd
    have hgo := findOldest_go role pings none (by simp)
    cases hres : findOldestPing role pings with
    | none =>
      exfalso
      unfold findOldestPing at hres
      rw [hres] at hgo
      obtain ⟨-, hnone⟩ := hgo
      have hflt : pings.filter (fun p => p.createdBy = role) = [] := by
        apply List.filter_eq_nil_iff.mpr
        intro p hp
        simpa using hnone p hp
      rw [hflt] at hmax
      simp at hmax
      omega
    | some oldest =>
      have hres2 := hres
      unfold findOldestPing at hres2
      rw [hres2] at hgo
      obtain ⟨hmem0, hby, hmin, -⟩ := hgo
      have hmem : oldest ∈ pings := by
        rcases hmem0 with h | h
        · exact Option.noConfusion h
        · exact h
      refine ⟨oldest, rfl, hmem, hby, hmin, ?_, ?_, ?_⟩
      · unfold addPing
        rw [hrole]
        dsimp only
        rw [if_neg hcd]
      · unfold addPing
        rw [hrole]
        dsimp only
        rw [if_neg hcd]
        dsimp only
        rw [if_pos hmax]
        rw [hres]
      · exact filter_ne_id_length oldest pings hmem hnd

set_option maxRecDepth 1500 in
/-- C8 (witness): a successful ping at `now = 5000` followed by a second call
at `now = 6000` (within the 3000 ms cooldown) returns `null` and changes
nothing; and a call with three dog pings outstanding (the maximum) evicts the
single oldest ("b", createdAt 50) and appends the new ping. -/
theorem addPing_spec_witness :
    (addPing constsA 5000 [("p1", Role.dog)] [] [] "p1" ⟨1, 1, 0⟩ .look "n1" =
        (some pingN1, [pingN1], [("p1", 5000)]) ∧
      (6000 : ℚ) - 5000 < constsA.pingCooldown) ∧
    addPing constsA 6000 [("p1", Role.dog)] [("p1", 5000)] [pingN1] "p1"
        ⟨2, 2, 0⟩ .go "n2" = (none, [pingN1], [("p1", 5000)]) ∧
    (([("p1", Role.dog)] : List (String × Role)).lookup "p1" = some Role.dog ∧
      ¬ (5000 : ℚ) - (([] : List (String × ℚ)).lookup "p1").getD 0 <
          constsA.pingCooldown ∧
      constsA.pingMaxPerPlayer ≤
        (pingsB.filter (fun p => p.createdBy = Role.dog)).length ∧
      0 < constsA.pingMaxPerPlayer ∧
      (pingsB.map (fun p => p.id)).Nodup) ∧
    (∃ oldest, findOldestPing Role.dog pingsB = some oldest ∧ oldest ∈ pingsB ∧
      oldest.createdBy = Role.dog ∧
      (∀ p ∈ pingsB, p.createdBy = Role.dog → oldest.createdAt ≤ p.createdAt) ∧
      (addPing constsA 5000 [("p1", Role.dog)] [] pingsB "p1" ⟨3, 3, 0⟩ .danger
          "n3").1 =
        some { id := "n3", position := ⟨3, 3, 0⟩, type := .danger,
               createdBy := Role.dog, createdAt := 5000,
               expiresAt := 5000 + constsA.pingLifetime } ∧
      (addPing constsA 5000 [("p1", Role.dog)] [] pingsB "p1" ⟨3, 3, 0⟩ .danger
          "n3").2.1 =
        pingsB.filter (fun p => p.id ≠ oldest.id) ++
          [{ id := "n3", position := ⟨3, 3, 0⟩, type := .danger,
             createdBy := Role.dog, createdAt := 5000,
             expiresAt := 5000 + constsA.pingLifetime }] ∧
      (pingsB.filter (fun p => p.id ≠ oldest.id)).length + 1 = pingsB.length) := by
  have h1 : addPing constsA 5000 [("p1", Role.dog)] [] [] "p1" ⟨1, 1, 0⟩ .look
      "n1" = (some pingN1, [pingN1], [("p1", 5000)]) := by
    norm_num [addPing, constsA, pingN1, List.lookup_cons, findOldestPing,
      findOldestStep]
  have h2 : (6000 : ℚ) - 5000 < constsA.pingCooldown := by
    with_unfolding_all decide
  refine ⟨⟨h1, h2⟩, ?_, ?_, ?_⟩
  · exact (addPing_spec constsA [("p1", Role.dog)]).1 [] [] "p1" ⟨1, 1, 0⟩ .look
      "n1" 5000 pingN1 [pingN1] [("p1", 5000)] ⟨2, 2, 0⟩ .go "n2" 6000 h1 h2
  · exact ⟨by with_unfolding_all decide, by with_unfolding_all decide,
      by with_unfolding_all decide, by with_unfolding_all decide,
      by with_unfolding_all decide⟩
  · exact (addPing_spec constsA [("p1", Role.dog)]).2 5000 [] pingsB "p1"
      ⟨3, 3, 0⟩ .danger "n3" Role.dog (by with_unfolding_all decide)
      (by with_unfolding_all decide) (by with_unfolding_all decide)
      (by with_unfolding_all decide) (by with_unfolding_all decide)

/-! ### Pressure-plate machinery: generic preservation lemmas (C2, C3) -/

theorem foldl_preserve_mem {α β : Type} {P : β → Prop} (f : β → α → β)
    (L : List α) :
    ∀ (init : β), P init → (∀ b a, a ∈ L → P b → P (f b a)) →
      P (L.foldl f init) := by
  induction L with
  | nil => intro init h _; exact h
  | cons x xs ih =>
    intro init h hstep
    exact ih (f init x) (hstep init x (List.mem_cons_self x xs) h)
      (fun b a ha hb => hstep b a (List.mem_cons_of_mem x ha) hb)

theorem findById_map_stateSafe (l : List Interactable)
    (g : Interactable → Interactable) (pid : String) (it : Interactable)
    (hg : ∀ j, (g j).id = j.id) (hit : g it = it)
    (hfind : findById l pid = some it) :
    findById (l.map g) pid = some it := by
  unfold findById at hfind ⊢
  rw [find?_map_of_id g hg pid l, hfind]
  simp [hit]

theorem findById_updateById_stateSafe (l : List Interactable) (i : String)
    (f : Interactable → Interactable) (pid : String) (it : Interactable)
    (hf : ∀ j, (f j).id = j.id) (hit : f it = it)
    (hfind : findById l pid = some it) :
    findById (updateById l i f) pid = some it := by
  by_cases h : pid = i
  · subst h
    rw [findById_updateById l pid f hf, hfind]
    simp [hit]
  · rw [findById_updateById_ne l i pid f hf h]
    exact hfind

/-- The skeleton of an interactable entry: the data `plateWeight` and the
id-indexed accessors depend on (id, position, is-it-a-crate). -/
def skelP (it : Interactable) : String × WorldPos × Bool :=
  (it.id, it.position, isCrate it)

theorem skel_map_updateById (l : List Interactable) (i : String)
    (f : Interactable → Interactable)
    (hf : ∀ j, skelP (f j) = skelP j) :
    (updateById l i f).map skelP = l.map skelP := by
  unfold updateById
  rw [List.map_map]
  apply List.map_congr_left
  intro j _
  by_cases h : j.id = i <;> simp [Function.comp, h, hf]

theorem crateFold_congr (pos : WorldPos) :
    ∀ (l l' : List Interactable), l.map skelP = l'.map skelP → ∀ a : ℚ,
      l.foldl
        (fun acc o =>
          if isCrate o then
            if sqDistLt (o.position.x - pos.x) (o.position.y - pos.y) 0.8 then
              acc + 2
            else acc
          else acc) a =
      l'.foldl
        (fun acc o =>
          if isCrate o then
            if sqDistLt (o.position.x - pos.x) (o.position.y - pos.y) 0.8 then
              acc + 2
            else acc
          else acc) a := by
  intro l
  induction l with
  | nil =>
    intro l' h a
    cases l' with
    | nil => rfl
    | cons y ys => simp at h
  | cons x xs ih =>
    intro l' h a
    cases l' with
    | nil => simp at h
    | cons y ys =>
      simp only [List.map_cons, List.cons.injEq] at h
      obtain ⟨h1, h2⟩ := h
      unfold skelP at h1
      simp only [Prod.mk.injEq] at h1
      obtain ⟨-, hpos, hcrate⟩ := h1
      rw [List.foldl_cons, List.foldl_cons, hpos, hcrate]
      exact ih ys h2 _

theorem plateWeight_congr (ents : List Entity) (pos : WorldPos)
    (l l' : List Interactable) (h : l.map skelP = l'.map skelP) :
    plateWeight ents l pos = plateWeight ents l' pos := by
  unfold plateWeight
  rw [crateFold_congr pos l l' h]

/-! ### Preservation of skeletons and plate entries through the plate phase -/

theorem skel_checkDoorUnlock (l : List Interactable) (doorId : String) :
    (checkDoorUnlock l doorId).map skelP = l.map skelP := by
  unfold checkDoorUnlock
  dsimp only
  split_ifs <;>
    first
      | rfl
      | (apply skel_map_updateById
         intro j
         obtain ⟨a, b, s, d⟩ := j
         cases s <;> rfl)

theorem plateEntry_checkDoorUnlock (l : List Interactable) (doorId pid : String)
    (it : Interactable) (hp : isPlate it = true)
    (hfind : findById l pid = some it) :
    findById (checkDoorUnlock l doorId) pid = some it := by
  unfold checkDoorUnlock
  dsimp only
  split_ifs <;>
    first
      | exact hfind
      | (apply findById_updateById_stateSafe _ _ _ _ _ ?_ ?_ hfind
         · intro j
           obtain ⟨a, b, s, d⟩ := j
           cases s <;> rfl
         · obtain ⟨a, b, s, d⟩ := it
           cases s <;> first | rfl | (exact absurd hp (by simp [isPlate])))

theorem skel_handlePressurePlateChange (l : List Interactable)
    (plate : Interactable) (b : Bool) :
    (handlePressurePlateChange l plate b).map skelP = l.map skelP := by
  unfold handlePressurePlateChange
  refine @foldl_preserve_mem String (List Interactable)
    (fun acc => acc.map skelP = List.map skelP l) _ _ l rfl ?_
  intro acc lid _ hacc
  cases hf : findById acc lid with
  | none => exact hacc
  | some linked =>
    dsimp only
    cases hs : linked.state <;> dsimp only <;>
      first
        | exact hacc
        | (rw [← hacc]
           apply skel_map_updateById
           intro j
           obtain ⟨a2, b2, s2, d2⟩ := j
           cases s2 <;> rfl)
        | (rw [← hacc]; exact skel_checkDoorUnlock acc lid)

theorem plateEntry_handlePressurePlateChange (l : List Interactable)
    (plate : Interactable) (b : Bool) (pid : String) (it : Interactable)
    (hp : isPlate it = true) (hfind : findById l pid = some it) :
    findById (handlePressurePlateChange l plate b) pid = some it := by
  unfold handlePressurePlateChange
  refine @foldl_preserve_mem String (List Interactable)
    (fun acc => findById acc pid = some it) _ _ l hfind ?_
  intro acc lid _ hacc
  cases hf : findById acc lid with
  | none => exact hacc
  | some linked =>
    dsimp only
    cases hs : linked.state <;> dsimp only <;>
      first
        | exact hacc
        | (apply findById_updateById_stateSafe _ _ _ _ _ ?_ ?_ hacc
           · intro j
             obtain ⟨a2, b2, s2, d2⟩ := j
             cases s2 <;> rfl
           · obtain ⟨a2, b2, s2, d2⟩ := it
             cases s2 <;> first | rfl | (exact absurd hp (by simp [isPlate])))
        | exact plateEntry_checkDoorUnlock acc lid pid it hp hacc

theorem skel_processPlate (ents : List Entity) (l : List Interactable)
    (pid : String) :
    (processPlate ents l pid).map skelP = l.map skelP := by
  unfold processPlate
  cases hf : findById l pid with
  | none => rfl
  | some it =>
    dsimp only
    cases hs : it.state <;> try rfl
    dsimp only
    split_ifs <;>
      first
        | (rw [skel_handlePressurePlateChange]
           apply skel_map_updateById
           intro j
           obtain ⟨a2, b2, s2, d2⟩ := j
           cases s2 <;> rfl)
        | (apply skel_map_updateById
           intro j
           obtain ⟨a2, b2, s2, d2⟩ := j
           cases s2 <;> rfl)

theorem plateEntry_processPlate_ne (ents : List Entity) (l : List Interactable)
    (tid pid : String) (it : Interactable) (hp : isPlate it = true)
    (hne : pid ≠ tid) (hfind : findById l pid = some it) :
    findById (processPlate ents l tid) pid = some it := by
  unfold processPlate
  cases hf : findById l tid with
  | none => exact hfind
  | some jt =>
    dsimp only
    cases hs : jt.state <;> try exact hfind
    dsimp only
    split_ifs <;>
      first
        | (apply plateEntry_handlePressurePlateChange _ _ _ _ _ hp
           rw [findById_updateById_ne _ _ _ _ ?_ hne]
           · exact hfind
           · intro j
             obtain ⟨a2, b2, s2, d2⟩ := j
             cases s2 <;> rfl)
        | (rw [findById_updateById_ne _ _ _ _ ?_ hne]
           · exact hfind
           · intro j
             obtain ⟨a2, b2, s2, d2⟩ := j
             cases s2 <;> rfl)

theorem platePhase_eval (ents : List Entity) (l : List Interactable)
    (pid : String) (it : Interactable) (act : Bool) (thr : Weight) (cw : ℚ)
    (hnd : (l.map (fun i => i.id)).Nodup)
    (hfind : findById l pid = some it)
    (hstate : it.state = .plate act thr cw) :
    findById (updatePressurePlatesList ents l) pid =
      some { it with state := (.plate
        (decide ((if thr = Weight.heavy then (2:ℚ) else 1) ≤
          plateWeight ents l it.position))
        thr (plateWeight ents l it.position)) } := by
  have hid : it.id = pid := by simpa using List.find?_some hfind
  have hmemIt : it ∈ l := List.mem_of_find?_eq_some hfind
  have hmemPid : pid ∈ l.map (fun i => i.id) :=
    hid ▸ List.mem_map_of_mem (fun i => i.id) hmemIt
  obtain ⟨L1, L2, hL⟩ := List.append_of_mem hmemPid
  have hnd2 : (L1 ++ pid :: L2).Nodup := hL ▸ hnd
  obtain ⟨-, hndc, hdisj⟩ := List.nodup_append.mp hnd2
  have hpid_not_L1 : pid ∉ L1 := fun h => hdisj h (List.mem_cons_self _ _)
  have hpid_not_L2 : pid ∉ L2 := (List.nodup_cons.mp hndc).1
  unfold updatePressurePlatesList
  rw [hL, List.foldl_append, List.foldl_cons]
  set mid := List.foldl (processPlate ents) l L1 with hmiddef
  have hmid : (mid.map skelP = l.map skelP) ∧ findById mid pid = some it := by
    rw [hmiddef]
    refine @foldl_preserve_mem String (List Interactable)
      (fun acc => acc.map skelP = l.map skelP ∧ findById acc pid = some it)
      _ _ l ⟨rfl, hfind⟩ ?_
    intro acc x hx hacc
    refine ⟨by rw [skel_processPlate]; exact hacc.1, ?_⟩
    exact plateEntry_processPlate_ne ents acc x pid it (by simp [isPlate, hstate])
      (fun h => hpid_not_L1 (h ▸ hx)) hacc.2
  obtain ⟨hskel_mid, hfind_mid⟩ := hmid
  have hW : plateWeight ents mid it.position = plateWeight ents l it.position :=
    plateWeight_congr ents it.position _ l hskel_mid
  have hstep : findById (processPlate ents mid pid) pid =
      some { it with state := (.plate
        (decide ((if thr = Weight.heavy then (2:ℚ) else 1) ≤
          plateWeight ents l it.position))
        thr (plateWeight ents l it.position)) } := by
    unfold processPlate
    rw [hfind_mid]
    dsimp only
    obtain ⟨iid, ipos, istate, ilinks⟩ := it
    dsimp only at hstate hW ⊢
    subst hstate
    dsimp only
    rw [hW]
    split_ifs <;>
      first
        | (apply plateEntry_handlePressurePlateChange _ _ _ _ _ (by simp [isPlate])
           rw [findById_updateById _ _ _
             (by intro j; obtain ⟨a2, b2, s2, d2⟩ := j; cases s2 <;> rfl), hfind_mid]
           rfl)
        | (rw [findById_updateById _ _ _
             (by intro j; obtain ⟨a2, b2, s2, d2⟩ := j; cases s2 <;> rfl), hfind_mid]
           rfl)
  refine @foldl_preserve_mem String (List Interactable)
    (fun acc => findById acc pid =
      some { it with state := (.plate
        (decide ((if thr = Weight.heavy then (2:ℚ) else 1) ≤
          plateWeight ents l it.position))
        thr (plateWeight ents l it.position)) }) _ _ _ hstep ?_
  intro acc x hx hacc
  exact plateEntry_processPlate_ne ents acc x pid _ (by simp [isPlate])
    (fun h => hpid_not_L2 (h ▸ hx)) hacc

/-! ### Plate entries survive the non-plate tick phases -/

theorem plateEntry_triggerLinkedObjects (l : List Interactable)
    (source : Interactable) (pid : String) (it : Interactable)
    (hp : isPlate it = true) (hfind : findById l pid = some it) :
    findById (triggerLinkedObjects l source) pid = some it := by
  unfold triggerLinkedObjects
  refine @foldl_preserve_mem String (List Interactable)
    (fun acc => findById acc pid = some it) _ _ l hfind ?_
  intro acc lid _ hacc
  unfold triggerLinkedStep
  cases hf : findById acc lid with
  | none => exact hacc
  | some linked =>
    dsimp only
    cases hs : linked.state <;> dsimp only <;>
      first
        | exact hacc
        | (apply findById_updateById_stateSafe _ _ _ _ _ ?_ ?_ hacc
           · intro j
             obtain ⟨a2, b2, s2, d2⟩ := j
             cases s2 <;> rfl
           · obtain ⟨a2, b2, s2, d2⟩ := it
             cases s2 <;> first | rfl | (exact absurd hp (by simp [isPlate])))

theorem plateEntry_triggerWinchPlatforms (l : List Interactable)
    (linkedIds : List String) (pid : String) (it : Interactable)
    (hp : isPlate it = true) (hfind : findById l pid = some it) :
    findById (triggerWinchPlatforms l linkedIds) pid = some it := by
  unfold triggerWinchPlatforms
  refine @foldl_preserve_mem String (List Interactable)
    (fun acc => findById acc pid = some it) _ _ l hfind ?_
  intro acc lid _ hacc
  cases hf : findById acc lid with
  | none => exact hacc
  | some linked =>
    dsimp only
    cases hs : linked.state <;> dsimp only <;>
      first
        | exact hacc
        | (apply findById_updateById_stateSafe _ _ _ _ _ ?_ ?_ hacc
           · intro j
             obtain ⟨a2, b2, s2, d2⟩ := j
             cases s2 <;> dsimp only <;>
               first
                 | rfl
                 | (cases (List.get? _ 1) <;> rfl)
           · obtain ⟨a2, b2, s2, d2⟩ := it
             cases s2 <;> first | rfl | (exact absurd hp (by simp [isPlate])))

theorem plateEntry_updateWinchesList (l : List Interactable) (pid : String)
    (it : Interactable) (hp : isPlate it = true)
    (hfind : findById l pid = some it) :
    findById (updateWinchesList l) pid = some it := by
  unfold updateWinchesList
  refine @foldl_preserve_mem String (List Interactable)
    (fun acc => findById acc pid = some it) _ _ l hfind ?_
  intro acc wid _ hacc
  unfold processWinch
  cases hf : findById acc wid with
  | none => exact hacc
  | some jt =>
    dsimp only
    cases hs : jt.state <;> try exact hacc
    dsimp only
    have hsafe : findById (updateById acc wid (fun j =>
        match j.state with
        | IState.winch e _ rp pb => { j with state := IState.winch e false rp pb }
        | _ => j)) pid = some it := by
      apply findById_updateById_stateSafe _ _ _ _ _ ?_ ?_ hacc
      · intro j
        obtain ⟨a2, b2, s2, d2⟩ := j
        cases s2 <;> rfl
      · obtain ⟨a2, b2, s2, d2⟩ := it
        cases s2 <;> first | rfl | (exact absurd hp (by simp [isPlate]))
    split_ifs <;>
      first
        | exact hacc
        | exact hsafe
        | (apply plateEntry_triggerWinchPlatforms _ _ _ _ hp
           apply findById_updateById_stateSafe _ _ _ _ _ ?_ ?_ hacc
           · intro j
             obtain ⟨a2, b2, s2, d2⟩ := j
             cases s2 <;> rfl
           · obtain ⟨a2, b2, s2, d2⟩ := it
             cases s2 <;> first | rfl | (exact absurd hp (by simp [isPlate])))
        | (apply findById_updateById_stateSafe _ _ _ _ _ ?_ ?_ hacc
           · intro j
             obtain ⟨a2, b2, s2, d2⟩ := j
             cases s2 <;> rfl
           · obtain ⟨a2, b2, s2, d2⟩ := it
             cases s2 <;> first | rfl | (exact absurd hp (by simp [isPlate])))

theorem plateEntry_updatePlatformsList (l : List Interactable) (pid : String)
    (it : Interactable) (hp : isPlate it = true)
    (hfind : findById l pid = some it) :
    findById (updatePlatformsList l) pid = some it := by
  unfold updatePlatformsList
  apply findById_map_stateSafe _ _ _ _ ?_ ?_ hfind
  · intro j
    unfold updatePlatformStep
    obtain ⟨a2, b2, s2, d2⟩ := j
    cases s2 <;> dsimp only <;>
      first
        | rfl
        | (split_ifs <;>
            first
              | rfl
              | (cases (List.get? _ 0) <;> cases (List.get? _ 1) <;> rfl))
  · unfold updatePlatformStep
    obtain ⟨a2, b2, s2, d2⟩ := it
    cases s2 <;> first | rfl | (exact absurd hp (by simp [isPlate]))

theorem plateEntry_updateTimedButtonsList (l : List Interactable) (pid : String)
    (it : Interactable) (hp : isPlate it = true)
    (hfind : findById l pid = some it) :
    findById (updateTimedButtonsList l) pid = some it := by
  unfold updateTimedButtonsList
  refine @foldl_preserve_mem String (List Interactable)
    (fun acc => findById acc pid = some it) _ _ l hfind ?_
  intro acc bid _ hacc
  unfold processTimedButton
  cases hf : findById acc bid with
  | none => exact hacc
  | some jt =>
    dsimp only
    cases hs : jt.state <;>
      first
        | exact hacc
        | (rename_i p m t td
           dsimp only
           cases t with
           | none => exact hacc
           | some tv =>
             dsimp only
             split_ifs <;>
               first
                 | exact hacc
                 | (apply plateEntry_triggerLinkedObjects _ _ _ _ hp
                    apply findById_updateById_stateSafe _ _ _ _ _ ?_ ?_ hacc
                    · intro j
                      obtain ⟨a2, b2, s2, d2⟩ := j
                      cases s2 <;> rfl
                    · obtain ⟨a2, b2, s2, d2⟩ := it
                      cases s2 <;>
                        first | rfl | (exact absurd hp (by simp [isPlate])))
                 | (apply findById_updateById_stateSafe _ _ _ _ _ ?_ ?_ hacc
                    · intro j
                      obtain ⟨a2, b2, s2, d2⟩ := j
                      cases s2 <;> rfl
                    · obtain ⟨a2, b2, s2, d2⟩ := it
                      cases s2 <;>
                        first | rfl | (exact absurd hp (by simp [isPlate]))))

theorem plateEntry_updateConveyorsList (ents : List Entity)
    (l : List Interactable) (pid : String) (it : Interactable)
    (hp : isPlate it = true) (hfind : findById l pid = some it) :
    findById (updateConveyorsList ents l).2 pid = some it := by
  unfold updateConveyorsList
  refine @foldl_preserve_mem String (List Entity × List Interactable)
    (fun st => findById st.2 pid = some it) _ _ (ents, l) hfind ?_
  intro st cid _ hacc
  unfold processConveyor
  cases hf : findById st.2 cid with
  | none => exact hacc
  | some jt =>
    dsimp only
    cases hs : jt.state <;> try exact hacc
    dsimp only
    split_ifs
    · apply findById_map_stateSafe _ _ _ _ ?_ ?_ hacc
      · intro j
        dsimp only
        split_ifs <;> rfl
      · have hnc : isCrate it = false := by
          obtain ⟨a2, b2, s2, d2⟩ := it
          cases s2 <;> first | rfl | (exact absurd hp (by simp [isPlate]))
        simp [hnc]
    · exact hacc

theorem plateEntry_checkPuzzleCompletionLists (lvO : Option LevelData)
    (ents : List Entity) (puzzles : List (String × PuzzleSt))
    (l : List Interactable) (pid : String) (it : Interactable)
    (hp : isPlate it = true) (hfind : findById l pid = some it) :
    findById (checkPuzzleCompletionLists lvO ents puzzles l).2 pid = some it := by
  unfold checkPuzzleCompletionLists
  cases lvO with
  | none => exact hfind
  | some lv =>
    refine @foldl_preserve_mem PuzzleConfig
      (List (String × PuzzleSt) × List Interactable)
      (fun st => findById st.2 pid = some it) _ _ (puzzles, l) hfind ?_
    intro st cfg _ hacc
    unfold processPuzzle
    cases hl : st.1.lookup cfg.id with
    | none => exact hacc
    | some ps =>
      dsimp only
      split_ifs <;>
        first
          | exact hacc
          | cases hcr : cfg.completionReward with
        | none => exact hacc
        | some rid =>
          dsimp only
          cases hfr : findById st.2 rid with
          | none => exact hacc
          | some reward =>
            dsimp only
            cases hrs : reward.state <;> dsimp only <;>
              first
                | exact hacc
                | (apply findById_updateById_stateSafe _ _ _ _ _ ?_ ?_ hacc
                   · intro j
                     obtain ⟨a2, b2, s2, d2⟩ := j
                     cases s2 <;> rfl
                   · obtain ⟨a2, b2, s2, d2⟩ := it
                     cases s2 <;>
                       first | rfl | (exact absurd hp (by simp [isPlate])))

/-- C2: after each tick's pressure-plate phase (and hence after the whole
tick — no later phase touches a plate's state), a pressure plate's
`activated` flag equals `totalWeight ≥ requiredWeight`, where the weight is
recomputed from scratch from the entity and crate positions current at the
start of the tick (dog = 1, panda = 2, crate = 2, within planar distance 0.8
of the plate's center) and the requirement is 2 for a heavy plate and 1 for a
light one.  The result does not depend on the previous `activated` value: a
plate with no qualifying weight in range is deactivated on that very tick. -/
theorem plate_activation_pure (sq : ℚ → ℚ) (atd : ℚ → ℚ → ℚ) (c : Consts)
    (now : ℚ) (w : World) (pid : String) (it : Interactable) (act : Bool)
    (thr : Weight) (cw : ℚ)
    (hpause : w.paused = false)
    (hnd : (w.interactables.map (fun i => i.id)).Nodup)
    (hfind : findById w.interactables pid = some it)
    (hstate : it.state = .plate act thr cw) :
    findById (tickStep sq atd c now w).interactables pid =
      some { it with state := (.plate
        (decide ((if thr = Weight.heavy then (2:ℚ) else 1) ≤
          plateWeight w.entities w.interactables it.position))
        thr (plateWeight w.entities w.interactables it.position)) } := by
  have h1 := platePhase_eval w.entities w.interactables pid it act thr cw hnd
    hfind hstate
  simp only [tickStep, hpause, Bool.false_eq_true, if_false, expirePingsW,
    checkPuzzleCompletionW, checkGuardDetectionW, preDetection,
    checkHazardCollisionsW, updateDistractionsW, updateGuardsW,
    updateConveyorsW, updateTimedButtonsW, updatePlatformsW, updateWinchesW,
    updatePressurePlatesW]
  apply plateEntry_checkPuzzleCompletionLists _ _ _ _ _ _ (by rfl)
  apply plateEntry_updateConveyorsList _ _ _ _ (by rfl)
  apply plateEntry_updateTimedButtonsList _ _ _ (by rfl)
  apply plateEntry_updatePlatformsList _ _ _ (by rfl)
  apply plateEntry_updateWinchesList _ _ _ (by rfl)
  exact h1

/-- C2 (witness): in `plateWorldA` the heavy plate ("plate_h") carries dog
(1) + panda (2) = 3 ≥ 2 after one tick: `activated = true`,
`currentWeight = 3`. -/
theorem plate_activation_pure_witness :
    (plateWorldA.paused = false ∧
      (plateWorldA.interactables.map (fun i => i.id)).Nodup ∧
      findById plateWorldA.interactables "plate_h" = some plateHeavyA ∧
      plateHeavyA.state = .plate false .heavy 0) ∧
    findById (tickStep (fun _ => 0) (fun _ _ => 0) constsA 0
        plateWorldA).interactables "plate_h" =
      some { plateHeavyA with state := (.plate
        (decide ((if Weight.heavy = Weight.heavy then (2:ℚ) else 1) ≤
          plateWeight plateWorldA.entities plateWorldA.interactables
            plateHeavyA.position))
        Weight.heavy
        (plateWeight plateWorldA.entities plateWorldA.interactables
          plateHeavyA.position)) } := by
  refine ⟨⟨rfl, by with_unfolding_all decide, by with_unfolding_all decide, rfl⟩, ?_⟩
  exact plate_activation_pure (fun _ => 0) (fun _ _ => 0) constsA 0 plateWorldA
    "plate_h" plateHeavyA false .heavy 0 rfl (by with_unfolding_all decide)
    (by with_unfolding_all decide) rfl

/-! ### C3: pressure plates gating a door (`checkDoorUnlock`) -/

theorem filter_map_congr {α : Type} (p : α → Bool) (g : α → α)
    (hg : ∀ a, p (g a) = p a) (hfix : ∀ a, p a = true → g a = a) :
    ∀ l : List α, (l.map g).filter p = l.filter p := by
  intro l
  induction l with
  | nil => rfl
  | cons a l ih =>
    simp only [List.map_cons, List.filter_cons, hg a]
    cases hp : p a
    · simpa using ih
    · simp [hfix a hp, ih]

theorem plateFilter_updateById (l : List Interactable) (i did : String)
    (f : Interactable → Interactable)
    (hf : ∀ j, isPlateLinkedTo did (f j) = isPlateLinkedTo did j)
    (hfix : ∀ j, isPlateLinkedTo did j = true → f j = j) :
    (updateById l i f).filter (isPlateLinkedTo did) =
      l.filter (isPlateLinkedTo did) := by
  unfold updateById
  apply filter_map_congr
  · intro a
    by_cases h : a.id = i <;> simp [h, hf]
  · intro a ha
    by_cases h : a.id = i <;> simp [h, hfix a ha]

theorem plateFilter_checkDoorUnlock (l : List Interactable) (doorId did : String) :
    (checkDoorUnlock l doorId).filter (isPlateLinkedTo did) =
      l.filter (isPlateLinkedTo did) := by
  unfold checkDoorUnlock
  dsimp only
  split_ifs <;>
    first
      | rfl
      | (apply plateFilter_updateById
         · intro j
           obtain ⟨a1, b1, s1, d1⟩ := j
           cases s1 <;> rfl
         · intro j hj
           obtain ⟨a1, b1, s1, d1⟩ := j
           cases s1 <;> first | rfl | (simp [isPlateLinkedTo, isPlate] at hj))

theorem findById_checkDoorUnlock_ne (l : List Interactable) (doorId j : String)
    (hne : j ≠ doorId) :
    findById (checkDoorUnlock l doorId) j = findById l j := by
  unfold checkDoorUnlock
  dsimp only
  split_ifs <;>
    first
      | rfl
      | (refine findById_updateById_ne _ _ _ _ ?_ hne
         intro k
         obtain ⟨a1, b1, s1, d1⟩ := k
         cases s1 <;> rfl)

theorem checkDoorUnlock_eval (l : List Interactable) (did : String)
    (e : Interactable) (o lk rh : Bool)
    (hfind : findById l did = some e) (hstate : e.state = .door o lk rh)
    (hlen : 0 < (l.filter (isPlateLinkedTo did)).length) :
    findById (checkDoorUnlock l did) did =
      some { e with state := (.door
        ((l.filter (isPlateLinkedTo did)).all plateActivated)
        (!(l.filter (isPlateLinkedTo did)).all plateActivated) rh) } := by
  unfold checkDoorUnlock
  dsimp only
  cases hall : (l.filter (isPlateLinkedTo did)).all plateActivated
  · rw [if_neg (by simp), if_pos hlen]
    rw [findById_updateById l did]
    · rw [hfind]
      obtain ⟨a1, b1, s1, d1⟩ := e
      cases hstate
      rfl
    · intro k
      obtain ⟨a1, b1, s1, d1⟩ := k
      cases s1 <;> rfl
  · rw [if_pos ⟨rfl, hlen⟩]
    rw [findById_updateById l did]
    · rw [hfind]
      obtain ⟨a1, b1, s1, d1⟩ := e
      cases hstate
      rfl
    · intro k
      obtain ⟨a1, b1, s1, d1⟩ := k
      cases s1 <;> rfl

theorem hppc_step_door (b : Bool) (did lid : String) (door : Interactable)
    (rh : Bool) (F : List Interactable) (o2 l2 : Bool) (hlen : 0 < F.length)
    (acc : List Interactable)
    (hF : acc.filter (isPlateLinkedTo did) = F)
    (hD : findById acc did = some { door with state := (.door o2 l2 rh) }) :
    (hppcStep b acc lid).filter (isPlateLinkedTo did) = F ∧
    ((lid = did ∧ findById (hppcStep b acc lid) did =
        some { door with state := (.door (F.all plateActivated)
          (!(F.all plateActivated)) rh) }) ∨
     (lid ≠ did ∧ findById (hppcStep b acc lid) did = findById acc did)) := by
  unfold hppcStep
  cases hf : findById acc lid with
  | none =>
    refine ⟨hF, ?_⟩
    by_cases hld : lid = did
    · subst hld
      rw [hf] at hD
      exact absurd hD (by simp)
    · exact Or.inr ⟨hld, rfl⟩
  | some linked =>
    dsimp only
    cases hs : linked.state <;> dsimp only
    case hazard x =>
      constructor
      · rw [← hF]
        apply plateFilter_updateById
        · intro j
          obtain ⟨a1, b1, s1, d1⟩ := j
          cases s1 <;> rfl
        · intro j hj
          obtain ⟨a1, b1, s1, d1⟩ := j
          cases s1 <;> first | rfl | (simp [isPlateLinkedTo, isPlate] at hj)
      · by_cases hld : lid = did
        · subst hld
          rw [hf] at hD
          injection hD with hD2
          rw [hD2] at hs
          simp at hs
        · refine Or.inr ⟨hld, ?_⟩
          refine findById_updateById_ne _ _ _ _ ?_ (Ne.symm hld)
          intro k
          obtain ⟨a1, b1, s1, d1⟩ := k
          cases s1 <;> rfl
    case door o3 l3 rh3 =>
      constructor
      · rw [← hF]
        exact plateFilter_checkDoorUnlock acc lid did
      · by_cases hld : lid = did
        · subst hld
          rw [hf] at hD
          injection hD with hD2
          refine Or.inl ⟨rfl, ?_⟩
          have h := checkDoorUnlock_eval acc lid
            { door with state := (.door o2 l2 rh) } o2 l2 rh
            (by rw [hD2] at hf; exact hf) rfl (by rw [hF]; exact hlen)
          rw [hF] at h
          exact h
        · exact Or.inr ⟨hld, findById_checkDoorUnlock_ne acc lid did
            (Ne.symm hld)⟩
    all_goals
      refine ⟨hF, ?_⟩
      by_cases hld : lid = did
      · subst hld
        rw [hf] at hD
        injection hD with hD2
        rw [hD2] at hs
        simp at hs
      · exact Or.inr ⟨hld, rfl⟩

theorem hppc_fold_door (b : Bool) (did : String) (door : Interactable)
    (rh : Bool) (F : List Interactable) (hlen : 0 < F.length) :
    ∀ (ids : List String) (acc : List Interactable),
      acc.filter (isPlateLinkedTo did) = F →
      (∃ o2 l2, findById acc did = some { door with state := (.door o2 l2 rh) }) →
      ((ids.foldl (hppcStep b) acc).filter (isPlateLinkedTo did) = F ∧
       (∃ o3 l3, findById (ids.foldl (hppcStep b) acc) did =
          some { door with state := (.door o3 l3 rh) }) ∧
       (did ∈ ids →
         findById (ids.foldl (hppcStep b) acc) did =
           some { door with state := (.door (F.all plateActivated)
             (!(F.all plateActivated)) rh) }) ∧
       (findById acc did =
           some { door with state := (.door (F.all plateActivated)
             (!(F.all plateActivated)) rh) } →
         findById (ids.foldl (hppcStep b) acc) did =
           some { door with state := (.door (F.all plateActivated)
             (!(F.all plateActivated)) rh) })) := by
  intro ids
  induction ids with
  | nil =>
    intro acc hF hEx
    exact ⟨hF, hEx, by simp, fun h => h⟩
  | cons lid rest ih =>
    intro acc hF hEx
    obtain ⟨o2, l2, hD⟩ := hEx
    obtain ⟨hF2, hcase⟩ := hppc_step_door b did lid door rh F o2 l2 hlen acc hF hD
    rw [List.foldl_cons]
    rcases hcase with ⟨heq, htgt⟩ | ⟨hne, hsame⟩
    · obtain ⟨ihF, ihEx, ihMem, ihKeep⟩ := ih (hppcStep b acc lid) hF2
        ⟨_, _, htgt⟩
      exact ⟨ihF, ihEx, fun _ => ihKeep htgt, fun _ => ihKeep htgt⟩
    · obtain ⟨ihF, ihEx, ihMem, ihKeep⟩ := ih (hppcStep b acc lid) hF2
        ⟨o2, l2, by rw [hsame]; exact hD⟩
      refine ⟨ihF, ihEx, ?_, ?_⟩
      · intro hm
        rcases List.mem_cons.mp hm with h1 | h2
        · exact absurd h1.symm hne
        · exact ihMem h2
      · intro h
        exact ihKeep (by rw [hsame]; exact h)

/-- C3: whenever a pressure plate's activation change is propagated
(`handlePressurePlateChange`, the handler `updatePressurePlates` invokes
exactly when a plate's `activated` flag changes during a tick) and a door is
among the plate's `linkedIds`, the door is re-evaluated by `checkDoorUnlock`:
provided at least one pressure plate lists the door in its `linkedIds`, the
door becomes open and unlocked iff every such plate is currently activated,
and otherwise becomes closed and locked — in terms of the store, the door's
entry ends as `.door all !all rh` where `all` says all linked plates are
activated. -/
theorem door_unlock_iff_all_plates (inters : List Interactable)
    (p : Interactable) (b : Bool) (did : String) (door : Interactable)
    (o lk rh : Bool)
    (hmem : did ∈ p.linkedIds)
    (hfind : findById inters did = some door)
    (hdoor : door.state = .door o lk rh)
    (hlen : 0 < (inters.filter (isPlateLinkedTo did)).length) :
    findById (handlePressurePlateChange inters p b) did =
      some { door with state := (.door
        ((inters.filter (isPlateLinkedTo did)).all plateActivated)
        (!((inters.filter (isPlateLinkedTo did)).all plateActivated)) rh) } := by
  have h := hppc_fold_door b did door rh (inters.filter (isPlateLinkedTo did))
    hlen p.linkedIds inters rfl
    ⟨o, lk, by rw [← hdoor]; exact hfind⟩
  exact h.2.2.1 hmem

/-- C3 (witness): spec Scenario B.  A light plate and a heavy plate are both
linked to the gate door "door_1".  When only the heavy plate is activated,
propagating its change leaves the door closed and locked; when both plates
are activated, the door becomes open and unlocked. -/
theorem door_unlock_iff_all_plates_witness :
    ("door_1" ∈ plateHeavyOn.linkedIds ∧
      findById gateIntersHeavyOnly "door_1" = some doorLockedA ∧
      doorLockedA.state = .door false true false ∧
      0 < (gateIntersHeavyOnly.filter (isPlateLinkedTo "door_1")).length ∧
      findById gateIntersBoth "door_1" = some doorLockedA ∧
      0 < (gateIntersBoth.filter (isPlateLinkedTo "door_1")).length) ∧
    findById (handlePressurePlateChange gateIntersHeavyOnly plateHeavyOn true)
        "door_1" = some { doorLockedA with state := (.door false true false) } ∧
    findById (handlePressurePlateChange gateIntersBoth plateHeavyOn true)
        "door_1" = some { doorLockedA with state := (.door true false false) } := by
  refine ⟨⟨by with_unfolding_all decide, by with_unfolding_all decide, rfl,
    by with_unfolding_all decide, by with_unfolding_all decide,
    by with_unfolding_all decide⟩, ?_, ?_⟩
  · have h := door_unlock_iff_all_plates gateIntersHeavyOnly plateHeavyOn true
      "door_1" doorLockedA false true false (by with_unfolding_all decide)
      (by with_unfolding_all decide) rfl (by with_unfolding_all decide)
    rw [show (gateIntersHeavyOnly.filter (isPlateLinkedTo "door_1")).all
        plateActivated = false from by with_unfolding_all decide] at h
    exact h
  · have h := door_unlock_iff_all_plates gateIntersBoth plateHeavyOn true
      "door_1" doorLockedA false true false (by with_unfolding_all decide)
      (by with_unfolding_all decide) rfl (by with_unfolding_all decide)
    rw [show (gateIntersBoth.filter (isPlateLinkedTo "door_1")).all
        plateActivated = true from by with_unfolding_all decide] at h
    exact h

/-! ### C6: hazard collisions and respawns -/

theorem hazStep_eq_of_hit_false (c : Consts) (lvO : Option LevelData)
    (acc : Entity × List RespawnEvent) (it : Interactable)
    (h : hazardHit c it acc.1.position = false) :
    hazStep c lvO acc it = acc := by
  obtain ⟨iid, ipos, istate, ilnk⟩ := it
  cases istate
  case hazard active =>
    unfold hazardHit at h
    dsimp only at h
    unfold hazStep
    simp [h]
  all_goals rfl

theorem hazStep_of_hit_true (c : Consts) (lvO : Option LevelData)
    (e : Entity) (evs : List RespawnEvent) (it : Interactable)
    (h : hazardHit c it e.position = true) :
    hazStep c lvO (e, evs) it =
      ((respawnEntity lvO e).1, evs ++ [(respawnEntity lvO e).2]) := by
  obtain ⟨iid, ipos, istate, ilnk⟩ := it
  cases istate
  case hazard active =>
    unfold hazardHit at h
    dsimp only at h
    unfold hazStep
    dsimp only
    rw [h]
    rfl
  all_goals simp [hazardHit] at h

theorem hazardSweep_stable (c : Consts) (lvO : Option LevelData) :
    ∀ (l : List Interactable) (acc : Entity × List RespawnEvent),
      (∀ it ∈ l, hazardHit c it acc.1.position = false) →
      l.foldl (hazStep c lvO) acc = acc := by
  intro l
  induction l with
  | nil => intro acc _; rfl
  | cons it rest ih =>
    intro acc h
    rw [List.foldl_cons, hazStep_eq_of_hit_false c lvO acc it
      (h it (List.mem_cons_self it rest))]
    exact ih acc (fun j hj => h j (List.mem_cons_of_mem it hj))

/-- C6 (amended): for the hazard sweep of one entity during a tick, if some
active hazard is within the collision radius of the entity's position and the
entity's level spawn point is clear of every active hazard, then the entity
ends the sweep at its level spawn point — not at the checkpoint, which
`respawnEntity` never consults — with velocity zeroed and state "idle", and
exactly one respawn event `(entityId, role, spawn, hazard)` is queued. -/
theorem hazard_respawn_spec (c : Consts) (lvO : Option LevelData)
    (inters : List Interactable) (e : Entity)
    (hhit : ∃ it ∈ inters, hazardHit c it e.position = true)
    (hclear : ∀ it ∈ inters,
      hazardHit c it (getSpawnPosition lvO e.type) = false) :
    hazardSweepEntity c lvO inters e =
      ({ e with
          position := getSpawnPosition lvO e.type, velocity := ⟨0, 0⟩,
          state := "idle" },
       [{ entityId := e.id, role := e.type,
          position := getSpawnPosition lvO e.type, reason := .hazard }]) := by
  have key : ∀ (l : List Interactable),
      (∃ it ∈ l, hazardHit c it e.position = true) →
      (∀ it ∈ l, hazardHit c it (getSpawnPosition lvO e.type) = false) →
      l.foldl (hazStep c lvO) (e, []) =
        ({ e with
            position := getSpawnPosition lvO e.type, velocity := ⟨0, 0⟩,
            state := "idle" },
         [{ entityId := e.id, role := e.type,
            position := getSpawnPosition lvO e.type, reason := .hazard }]) := by
    intro l
    induction l with
    | nil =>
      intro h1 _
      obtain ⟨it, hmem, _⟩ := h1
      simp at hmem
    | cons it rest ih =>
      intro h1 h2
      rw [List.foldl_cons]
      cases hh : hazardHit c it e.position
      · rw [hazStep_eq_of_hit_false c lvO (e, []) it hh]
        refine ih ?_ (fun j hj => h2 j (List.mem_cons_of_mem it hj))
        obtain ⟨j, hj, hjt⟩ := h1
        rcases List.mem_cons.mp hj with rfl | hj2
        · rw [hh] at hjt
          exact absurd hjt (by simp)
        · exact ⟨j, hj2, hjt⟩
      · rw [hazStep_of_hit_true c lvO e [] it hh]
        have hstab := hazardSweep_stable c lvO rest
          ((respawnEntity lvO e).1, [] ++ [(respawnEntity lvO e).2])
          (fun j hj => h2 j (List.mem_cons_of_mem it hj))
        rw [hstab]
        rfl
  exact key inters hhit hclear

/-- C6 (witness): the running dog standing on the active hazard `hazardOn`
(no level: dog spawn `(5, 5)`, clear of the hazard) ends the sweep idle at
`(5, 5)` with zero velocity and exactly one queued hazard respawn event. -/
theorem hazard_respawn_spec_witness :
    (∃ it ∈ [hazardOn], hazardHit constsA it dogAtHazard.position = true) ∧
    (∀ it ∈ [hazardOn],
      hazardHit constsA it (getSpawnPosition none dogAtHazard.type) = false) ∧
    hazardSweepEntity constsA none [hazardOn] dogAtHazard =
      ({ dogAtHazard with
          position := ⟨5, 5, 0⟩, velocity := ⟨0, 0⟩, state := "idle" },
       [{ entityId := "dog_entity", role := .dog,
          position := ⟨5, 5, 0⟩, reason := .hazard }]) := by
  refine ⟨⟨hazardOn, List.mem_cons_self hazardOn [],
      by with_unfolding_all decide⟩,
    by with_unfolding_all decide, ?_⟩
  exact hazard_respawn_spec constsA none [hazardOn] dogAtHazard
    ⟨hazardOn, List.mem_cons_self hazardOn [], by with_unfolding_all decide⟩
    (by with_unfolding_all decide)

/-- C6 (counterexample): the claim says a hazard contact resets the entity
"to the explicit checkpoint position if one has been set via setCheckpoint,
otherwise to its level spawn point".  In `hazardWorldA` a checkpoint has been
set at `(9, 9)`, yet the dog standing on the active hazard is reset to its
spawn `(5, 5)`: `respawnEntity` (the hazard path) never reads
`checkpointPosition` — only the guard-catch path
(`respawnPlayersAtCheckpoint`) does. -/
theorem hazard_ignores_checkpoint :
    hazardWorldA.checkpointPosition = some (⟨9, 9, 0⟩, ⟨9, 9, 0⟩) ∧
    (checkHazardCollisionsW constsA hazardWorldA).entities =
      [{ dogAtHazard with
          position := ⟨5, 5, 0⟩, velocity := ⟨0, 0⟩, state := "idle" }] ∧
    (checkHazardCollisionsW constsA hazardWorldA).pendingRespawns =
      [{ entityId := "dog_entity", role := .dog,
          position := ⟨5, 5, 0⟩, reason := .hazard }] := by
  refine ⟨rfl, ?_, ?_⟩ <;> with_unfolding_all decide

/-! ### C9: wall-clock dependence of the tick -/

theorem updateDistractionsLists_congr (now1 now2 : ℚ) (ds : List Distraction)
    (gs : List GuardS)
    (h : liveDistractions now1 ds = liveDistractions now2 ds) :
    updateDistractionsLists now1 ds gs = updateDistractionsLists now2 ds gs := by
  unfold updateDistractionsLists
  rw [h]

/-- C9 (amended): a tick reads the wall clock (`Date.now()`) in exactly two
places — the distraction-expiry filter and the ping-expiry filter.  Two runs
of the same tick on the same state at different wall-clock instants agree
whenever those two filters agree; every other timed behavior (button
countdown, plate weight, guard AI timers) depends only on per-tick state. -/
theorem tick_wallclock_only_filters (sq : ℚ → ℚ) (atd : ℚ → ℚ → ℚ)
    (c : Consts) (now1 now2 : ℚ) (w : World)
    (hd : liveDistractions now1 w.distractions =
      liveDistractions now2 w.distractions)
    (hp : expirePingsList now1 w.pings = expirePingsList now2 w.pings) :
    tickStep sq atd c now1 w = tickStep sq atd c now2 w := by
  unfold tickStep
  by_cases hpause : w.paused = true
  · rw [if_pos hpause, if_pos hpause]
  · rw [if_neg hpause, if_neg hpause]
    unfold preDetection
    set mid : World := updateGuardsW sq atd (updateConveyorsW
      (updateTimedButtonsW (updatePlatformsW (updateWinchesW
        (updatePressurePlatesW { w with tickCount := w.tickCount + 1 })))))
      with hmid
    have hd2 : liveDistractions now1 mid.distractions =
        liveDistractions now2 mid.distractions := hd
    have h1 : updateDistractionsW now1 mid = updateDistractionsW now2 mid := by
      unfold updateDistractionsW
      rw [updateDistractionsLists_congr now1 now2 mid.distractions mid.guards hd2]
    rw [h1]
    unfold expirePingsW
    rw [show expirePingsList now1 (checkPuzzleCompletionW (checkGuardDetectionW
        atd (checkHazardCollisionsW c (updateDistractionsW now2 mid)))).pings =
      expirePingsList now2 (checkPuzzleCompletionW (checkGuardDetectionW
        atd (checkHazardCollisionsW c (updateDistractionsW now2 mid)))).pings
      from hp]

set_option maxRecDepth 1500 in
/-- C9 (counterexample): the claim says the simulation never depends on
wall-clock time.  But `updateDistractions` filters by `Date.now()`: ticking
`distWorldA` (same state, same single tick) at wall-clock 1000 keeps the
whistle distraction, at wall-clock 5000 it is expired, so the two resulting
states differ.  (`expirePings` and the crate `setTimeout` are the other two
real-time dependencies.) -/
theorem tick_wallclock_counterexample :
    (tickStep (fun _ => 0) (fun _ _ => 0) constsA 1000 distWorldA).distractions =
      [whistleAt0] ∧
    (tickStep (fun _ => 0) (fun _ _ => 0) constsA 5000 distWorldA).distractions =
      [] ∧
    tickStep (fun _ => 0) (fun _ _ => 0) constsA 1000 distWorldA ≠
      tickStep (fun _ => 0) (fun _ _ => 0) constsA 5000 distWorldA := by
  have hA : tickStep (fun _ => 0) (fun _ _ => 0) constsA 1000 distWorldA =
      { distWorldA with tickCount := 1 } := by
    with_unfolding_all rfl
  have hB : tickStep (fun _ => 0) (fun _ _ => 0) constsA 5000 distWorldA =
      { distWorldA with tickCount := 1, distractions := [] } := by
    with_unfolding_all rfl
  refine ⟨by rw [hA]; try rfl, by rw [hB]; try rfl, fun h => ?_⟩
  rw [hA, hB] at h
  simpa [distWorldA] using congrArg World.distractions h

set_option maxRecDepth 1500 in
/-- C9 (witness): two ticks at wall-clock instants 100 and 200 on
`distWorldA` (whistle still live at both instants, no pings) produce
identical worlds. -/
theorem tick_wallclock_only_filters_witness :
    (liveDistractions 100 distWorldA.distractions =
      liveDistractions 200 distWorldA.distractions ∧
     expirePingsList 100 distWorldA.pings =
      expirePingsList 200 distWorldA.pings) ∧
    tickStep (fun _ => 0) (fun _ _ => 0) constsA 100 distWorldA =
      tickStep (fun _ => 0) (fun _ _ => 0) constsA 200 distWorldA := by
  refine ⟨⟨by norm_num [liveDistractions, distWorldA, whistleAt0, List.filter],
    rfl⟩, ?_⟩
  exact tick_wallclock_only_filters (fun _ => 0) (fun _ _ => 0) constsA
    100 200 distWorldA
    (by norm_num [liveDistractions, distWorldA, whistleAt0, List.filter]) rfl
/-! ### C5: guard alert-state transition sources -/

theorem applyDistraction_pos (d : Distraction) (g : GuardS) :
    (applyDistraction d g).position = g.position := by
  unfold applyDistraction
  split_ifs <;> rfl

theorem applyDistraction_alert (d : Distraction) (g : GuardS)
    (h : (applyDistraction d g).alertState = .alert) :
    g.alertState = .alert := by
  unfold applyDistraction at h
  split_ifs at h with h1 h2
  · exact h
  · exact h

theorem applyDistraction_susp (d : Distraction) (g : GuardS)
    (h : (applyDistraction d g).alertState = .suspicious) :
    g.alertState = .suspicious ∨ inHearing d g = true := by
  unfold applyDistraction at h
  split_ifs at h with h1 h2
  · exact Or.inl h
  · exact Or.inr h2
  · exact Or.inl h

theorem inHearing_congr (d : Distraction) (g1 g2 : GuardS)
    (h : g1.position = g2.position) : inHearing d g1 = inHearing d g2 := by
  unfold inHearing
  rw [h]

theorem applyDistractionsTo_alert (ds : List Distraction) :
    ∀ g : GuardS, (applyDistractionsTo ds g).alertState = .alert →
      g.alertState = .alert := by
  induction ds with
  | nil => intro g h; exact h
  | cons d ds ih =>
    intro g h
    have h2 : (applyDistractionsTo ds (applyDistraction d g)).alertState =
        .alert := h
    exact applyDistraction_alert d g (ih (applyDistraction d g) h2)

theorem applyDistractionsTo_susp (ds : List Distraction) :
    ∀ g : GuardS, (applyDistractionsTo ds g).alertState = .suspicious →
      g.alertState = .suspicious ∨ ∃ d ∈ ds, inHearing d g = true := by
  induction ds with
  | nil => intro g h; exact Or.inl h
  | cons d ds ih =>
    intro g h
    have h2 : (applyDistractionsTo ds (applyDistraction d g)).alertState =
        .suspicious := h
    rcases ih (applyDistraction d g) h2 with h3 | ⟨d2, hd2, hh⟩
    · rcases applyDistraction_susp d g h3 with h4 | h4
      · exact Or.inl h4
      · exact Or.inr ⟨d, List.mem_cons_self d ds, h4⟩
    · refine Or.inr ⟨d2, List.mem_cons_of_mem d hd2, ?_⟩
      rw [inHearing_congr d2 (applyDistraction d g) g
        (applyDistraction_pos d g)] at hh
      exact hh

theorem map_getElem2 {α β : Type} (f : α → β) :
    ∀ (l : List α) (i : ℕ), (l.map f)[i]? = (l[i]?).map f := by
  intro l
  induction l with
  | nil => intro i; simp
  | cons a l ih =>
    intro i
    cases i with
    | zero => simp
    | succ i => simpa using ih i

theorem distractionFold_index (ds : List Distraction) :
    ∀ (gs : List GuardS) (i : ℕ),
      (ds.foldl (fun acc d => acc.map (applyDistraction d)) gs)[i]? =
        (gs[i]?).map (applyDistractionsTo ds) := by
  induction ds with
  | nil =>
    intro gs i
    rw [List.foldl_nil]
    cases gs[i]? <;> rfl
  | cons d ds ih =>
    intro gs i
    have h1 : (d :: ds).foldl (fun acc d => acc.map (applyDistraction d)) gs =
        ds.foldl (fun acc d => acc.map (applyDistraction d))
          (gs.map (applyDistraction d)) := rfl
    rw [h1, ih (gs.map (applyDistraction d)) i, map_getElem2]
    cases gs[i]? <;> rfl

theorem updateGuardPatrol_state (sq : ℚ → ℚ) (atd : ℚ → ℚ → ℚ) (g : GuardS) :
    (updateGuardPatrol sq atd g).alertState = g.alertState := by
  unfold updateGuardPatrol
  split
  · rfl
  · split
    · rfl
    · dsimp only
      split_ifs <;> rfl

theorem updateGuardSuspicious_state (sq : ℚ → ℚ) (atd : ℚ → ℚ → ℚ) (g : GuardS) :
    (updateGuardSuspicious sq atd g).alertState = .returning ∨
    (updateGuardSuspicious sq atd g).alertState = g.alertState := by
  unfold updateGuardSuspicious
  dsimp only
  split_ifs
  · exact Or.inl rfl
  · refine Or.inr ?_
    split <;> first | rfl | (split_ifs <;> rfl)

theorem updateGuardAlert_state (sq : ℚ → ℚ) (atd : ℚ → ℚ → ℚ) (g : GuardS) :
    ((updateGuardAlert sq atd g).alertState = .suspicious ∧
      g.lastSeenPlayerPos = none) ∨
    (updateGuardAlert sq atd g).alertState = g.alertState := by
  unfold updateGuardAlert
  cases hl : g.lastSeenPlayerPos
  · exact Or.inl ⟨rfl, rfl⟩
  · dsimp only
    split_ifs <;> exact Or.inr rfl

theorem updateGuardReturning_state (sq : ℚ → ℚ) (atd : ℚ → ℚ → ℚ) (g : GuardS) :
    (updateGuardReturning sq atd g).alertState = .idle ∨
    (updateGuardReturning sq atd g).alertState = g.alertState := by
  unfold updateGuardReturning
  split_ifs
  · exact Or.inl rfl
  · split
    · exact Or.inr rfl
    · split
      · exact Or.inr rfl
      · dsimp only
        split_ifs
        · exact Or.inl rfl
        · exact Or.inr rfl

theorem stepGuard_alert (sq : ℚ → ℚ) (atd : ℚ → ℚ → ℚ) (g : GuardS)
    (h : (stepGuard sq atd g).alertState = .alert) :
    g.alertState = .alert := by
  unfold stepGuard at h
  cases hs : g.alertState
  · rw [hs] at h
    dsimp only at h
    rw [updateGuardPatrol_state sq atd g, hs] at h
    simp at h
  · rw [hs] at h
    dsimp only at h
    rcases updateGuardSuspicious_state sq atd g with h2 | h2 <;> rw [h2] at h <;>
      first | simp at h | (rw [hs] at h; simp at h)
  · rfl
  · rw [hs] at h
    dsimp only at h
    rcases updateGuardReturning_state sq atd g with h2 | h2 <;> rw [h2] at h <;>
      first | simp at h | (rw [hs] at h; simp at h)

theorem stepGuard_susp (sq : ℚ → ℚ) (atd : ℚ → ℚ → ℚ) (g : GuardS)
    (h : (stepGuard sq atd g).alertState = .suspicious) :
    g.alertState = .suspicious ∨
    (g.alertState = .alert ∧ g.lastSeenPlayerPos = none) := by
  unfold stepGuard at h
  cases hs : g.alertState
  · rw [hs] at h
    dsimp only at h
    rw [updateGuardPatrol_state sq atd g, hs] at h
    simp at h
  · exact Or.inl rfl
  · rw [hs] at h
    dsimp only at h
    rcases updateGuardAlert_state sq atd g with ⟨h2a, h2b⟩ | h2
    · exact Or.inr ⟨rfl, h2b⟩
    · rw [h2, hs] at h
      simp at h
  · rw [hs] at h
    dsimp only at h
    rcases updateGuardReturning_state sq atd g with h2 | h2 <;> rw [h2] at h
    · simp at h
    · rw [hs] at h
      simp at h

theorem detectEntities_alert_source (atd : ℚ → ℚ → ℚ) (lvO : Option LevelData)
    (inters : List Interactable) :
    ∀ (ents : List Entity) (g : GuardS),
      (ents.foldl (detectStep atd lvO inters) g).alertState = .alert →
      g.alertState = .alert ∨
        ∃ e ∈ ents, canGuardSeeEntity atd lvO inters g e = true := by
  intro ents
  induction ents with
  | nil => intro g h; exact Or.inl h
  | cons e ents ih =>
    intro g h
    cases hsee : canGuardSeeEntity atd lvO inters g e
    · have hstep : detectStep atd lvO inters g e = g := by
        simp [detectStep, hsee]
      rw [List.foldl_cons, hstep] at h
      rcases ih g h with h2 | ⟨e2, he2, hsee2⟩
      · exact Or.inl h2
      · exact Or.inr ⟨e2, List.mem_cons_of_mem e he2, hsee2⟩
    · exact Or.inr ⟨e, List.mem_cons_self e ents, hsee⟩

theorem detectEntities_susp_source (atd : ℚ → ℚ → ℚ) (lvO : Option LevelData)
    (inters : List Interactable) :
    ∀ (ents : List Entity) (g : GuardS),
      (ents.foldl (detectStep atd lvO inters) g).alertState = .suspicious →
      g.alertState = .suspicious := by
  intro ents
  induction ents with
  | nil => intro g h; exact h
  | cons e ents ih =>
    intro g h
    rw [List.foldl_cons] at h
    have h2 := ih (detectStep atd lvO inters g e) h
    unfold detectStep at h2
    split_ifs at h2
    exact h2

theorem catchSweep_state (lvO : Option LevelData)
    (cp : Option (WorldPos × WorldPos)) (g : GuardS) (ents : List Entity) :
    (catchSweep lvO cp g ents).1.alertState = g.alertState ∨
    (catchSweep lvO cp g ents).1.alertState = .returning := by
  have h : ((List.range ents.length).foldl (catchStep lvO cp)
      (g, ents, [])).1.alertState = g.alertState ∨
      ((List.range ents.length).foldl (catchStep lvO cp)
        (g, ents, [])).1.alertState = .returning := by
    refine @foldl_preserve ℕ (GuardS × List Entity × List RespawnEvent)
      (fun acc => acc.1.alertState = g.alertState ∨
        acc.1.alertState = .returning)
      (catchStep lvO cp) (List.range ents.length) (g, ents, [])
      (Or.inl rfl) ?_
    intro b a hb
    unfold catchStep
    cases b.2.1.get? a
    · exact hb
    · dsimp only
      split_ifs
      · exact Or.inr rfl
      · exact hb
  exact h

theorem respawn_ids (lvO : Option LevelData) (cp : Option (WorldPos × WorldPos))
    (reason : RespawnReason) (l : List Entity) :
    (respawnPlayersAtCheckpoint lvO cp reason l).1.map (fun e => e.id) =
      l.map (fun e => e.id) := by
  unfold respawnPlayersAtCheckpoint
  dsimp only
  rw [List.map_map, List.map_map]
  exact List.map_congr_left (fun e _ => rfl)

theorem catchSweep_ids (lvO : Option LevelData)
    (cp : Option (WorldPos × WorldPos)) (g : GuardS) (ents : List Entity) :
    (catchSweep lvO cp g ents).2.1.map (fun e => e.id) =
      ents.map (fun e => e.id) := by
  have h : ((List.range ents.length).foldl (catchStep lvO cp)
      (g, ents, [])).2.1.map (fun e => e.id) = ents.map (fun e => e.id) := by
    refine @foldl_preserve ℕ (GuardS × List Entity × List RespawnEvent)
      (fun acc => acc.2.1.map (fun e => e.id) = ents.map (fun e => e.id))
      (catchStep lvO cp) (List.range ents.length) (g, ents, []) rfl ?_
    intro b a hb
    unfold catchStep
    cases b.2.1.get? a
    · exact hb
    · dsimp only
      split_ifs
      · rw [respawn_ids]
        exact hb
      · exact hb
  exact h

theorem runDetection_index (atd : ℚ → ℚ → ℚ) (lvO : Option LevelData)
    (cp : Option (WorldPos × WorldPos)) (inters : List Interactable) :
    ∀ (gs : List GuardS) (ents : List Entity) (i : ℕ) (g' : GuardS),
      (runDetection atd lvO cp inters gs ents).1[i]? = some g' →
      ∃ g ents1, gs[i]? = some g ∧
        ents1.map (fun e => e.id) = ents.map (fun e => e.id) ∧
        g' = (catchSweep lvO cp (detectEntities atd lvO inters g ents1)
          ents1).1 := by
  intro gs
  induction gs with
  | nil =>
    intro ents i g' h
    have h2 : (([] : List GuardS))[i]? = some g' := h
    simp at h2
  | cons g gs ih =>
    intro ents i g' h
    have h0 : (runDetection atd lvO cp inters (g :: gs) ents).1 =
        (catchSweep lvO cp (detectEntities atd lvO inters g ents) ents).1 ::
        (runDetection atd lvO cp inters gs
          (catchSweep lvO cp (detectEntities atd lvO inters g ents)
            ents).2.1).1 := rfl
    rw [h0] at h
    cases i with
    | zero =>
      rw [List.getElem?_cons_zero] at h
      exact ⟨g, ents, by rw [List.getElem?_cons_zero], rfl,
        (Option.some.inj h).symm⟩
    | succ i =>
      rw [List.getElem?_cons_succ] at h
      obtain ⟨g0, ents1, hg0, hids, heq⟩ := ih _ i g' h
      refine ⟨g0, ents1, ?_, ?_, heq⟩
      · rw [List.getElem?_cons_succ]
        exact hg0
      · rw [catchSweep_ids] at hids
        exact hids

/-- C5: during one tick, a guard's `alertState` becomes `alert` only through
the detection loop — either it was already alert at the start of the tick, or
`canGuardSeeEntity` held for that guard (in its pre-detection state `gm`)
against some entity of that same tick (same id multiset as the pre-detection
entity list); and it becomes `suspicious` only if it already was, or it was
`alert` with no last-seen position (the `updateGuardAlert` downgrade), or a
live distraction of this tick was within hearing range of the guard after its
movement step.  In particular an idle guard never jumps to `alert` without a
same-tick detection. -/
theorem guard_alert_transitions (sq : ℚ → ℚ) (atd : ℚ → ℚ → ℚ) (c : Consts)
    (now : ℚ) (w : World) (i : ℕ) (g g' : GuardS)
    (hpause : w.paused = false)
    (hg : w.guards[i]? = some g)
    (hg' : (tickStep sq atd c now w).guards[i]? = some g') :
    (g'.alertState = .alert → (g.alertState = .alert ∨
      ∃ (gm : GuardS) (ents1 : List Entity), (preDetection sq atd c now w).guards[i]? = some gm ∧
        ents1.map (fun e => e.id) =
          (preDetection sq atd c now w).entities.map (fun e => e.id) ∧
        ∃ e ∈ ents1, canGuardSeeEntity atd w.level
          (preDetection sq atd c now w).interactables gm e = true)) ∧
    (g'.alertState = .suspicious → (g.alertState = .suspicious ∨
      (g.alertState = .alert ∧ g.lastSeenPlayerPos = none) ∨
      ∃ d ∈ liveDistractions now w.distractions,
        inHearing d (stepGuard sq atd g) = true)) := by
  have hguards : (tickStep sq atd c now w).guards =
      (runDetection atd (preDetection sq atd c now w).level
        (preDetection sq atd c now w).checkpointPosition
        (preDetection sq atd c now w).interactables
        (preDetection sq atd c now w).guards
        (preDetection sq atd c now w).entities).1 := by
    simp only [tickStep, hpause, Bool.false_eq_true, if_false]
    rfl
  have hmg : (preDetection sq atd c now w).guards[i]? =
      some (applyDistractionsTo (liveDistractions now w.distractions)
        (stepGuard sq atd g)) := by
    have h0 : (preDetection sq atd c now w).guards =
        (liveDistractions now w.distractions).foldl
          (fun acc d => acc.map (applyDistraction d))
          (w.guards.map (stepGuard sq atd)) := rfl
    rw [h0, distractionFold_index, map_getElem2, hg]
    rfl
  rw [hguards] at hg'
  obtain ⟨gm, ents1, hgm, hids, heq⟩ :=
    runDetection_index atd (preDetection sq atd c now w).level
      (preDetection sq atd c now w).checkpointPosition
      (preDetection sq atd c now w).interactables
      (preDetection sq atd c now w).guards
      (preDetection sq atd c now w).entities i g' hg'
  have hgmval : gm = applyDistractionsTo (liveDistractions now w.distractions)
      (stepGuard sq atd g) := by
    rw [hgm] at hmg
    exact Option.some.inj hmg
  constructor
  · intro halert
    rw [heq] at halert
    rcases catchSweep_state (preDetection sq atd c now w).level
        (preDetection sq atd c now w).checkpointPosition
        (detectEntities atd (preDetection sq atd c now w).level
          (preDetection sq atd c now w).interactables gm ents1) ents1 with
      hc | hc
    · rw [hc] at halert
      rcases detectEntities_alert_source atd (preDetection sq atd c now w).level
          (preDetection sq atd c now w).interactables ents1 gm halert with
        h2 | ⟨e, he, hsee⟩
      · left
        refine stepGuard_alert sq atd g ?_
        refine applyDistractionsTo_alert (liveDistractions now w.distractions)
          (stepGuard sq atd g) ?_
        rw [← hgmval]
        exact h2
      · right
        exact ⟨gm, ents1, hgm, hids, e, he, hsee⟩
    · rw [hc] at halert
      simp at halert
  · intro hsusp
    rw [heq] at hsusp
    rcases catchSweep_state (preDetection sq atd c now w).level
        (preDetection sq atd c now w).checkpointPosition
        (detectEntities atd (preDetection sq atd c now w).level
          (preDetection sq atd c now w).interactables gm ents1) ents1 with
      hc | hc
    · rw [hc] at hsusp
      have h2 := detectEntities_susp_source atd
        (preDetection sq atd c now w).level
        (preDetection sq atd c now w).interactables ents1 gm hsusp
      rw [hgmval] at h2
      rcases applyDistractionsTo_susp (liveDistractions now w.distractions)
          (stepGuard sq atd g) h2 with h3 | ⟨d, hd, hh⟩
      · rcases stepGuard_susp sq atd g h3 with h4 | h4
        · exact Or.inl h4
        · exact Or.inr (Or.inl h4)
      · exact Or.inr (Or.inr ⟨d, hd, hh⟩)
    · rw [hc] at hsusp
      simp at hsusp

set_option maxRecDepth 1500 in
/-- C5 (witness): in `guardWorldC5` the idle guard sees the panda standing
one unit ahead during the tick and ends it alert; the theorem applies with
the tick's concrete before/after guard states. -/
theorem guard_alert_transitions_witness :
    (guardWorldC5.paused = false ∧
     guardWorldC5.guards[0]? = some guardIdle ∧
     (tickStep (fun _ => 0) (fun _ _ => 0) constsA 0 guardWorldC5).guards[0]? =
       some gAlertAfter) ∧
    ((gAlertAfter.alertState = .alert → (guardIdle.alertState = .alert ∨
      ∃ (gm : GuardS) (ents1 : List Entity),
        (preDetection (fun _ => 0) (fun _ _ => 0) constsA 0
          guardWorldC5).guards[0]? = some gm ∧
        ents1.map (fun e => e.id) =
          (preDetection (fun _ => 0) (fun _ _ => 0) constsA 0
            guardWorldC5).entities.map (fun e => e.id) ∧
        ∃ e ∈ ents1, canGuardSeeEntity (fun _ _ => 0) guardWorldC5.level
          (preDetection (fun _ => 0) (fun _ _ => 0) constsA 0
            guardWorldC5).interactables gm e = true)) ∧
     (gAlertAfter.alertState = .suspicious →
       (guardIdle.alertState = .suspicious ∨
        (guardIdle.alertState = .alert ∧ guardIdle.lastSeenPlayerPos = none) ∨
        ∃ d ∈ liveDistractions 0 guardWorldC5.distractions,
          inHearing d (stepGuard (fun _ => 0) (fun _ _ => 0) guardIdle) =
            true))) := by
  have h3 : (tickStep (fun _ => 0) (fun _ _ => 0) constsA 0
      guardWorldC5).guards[0]? = some gAlertAfter := by
    with_unfolding_all rfl
  refine ⟨⟨rfl, by simp [guardWorldC5], h3⟩, ?_⟩
  exact guard_alert_transitions (fun _ => 0) (fun _ _ => 0) constsA 0
    guardWorldC5 0 guardIdle gAlertAfter rfl (by simp [guardWorldC5]) h3

end Game
